import Mathlib

/-!
Verification of the Change Ledger & Reversible Mutation Subsystem of
`app/server.py` (makerflowPM).

The embedding models the relational store as named tables of rows, where a
row is an association list from column names to scalar values, and the audit
ledger (`audit_log`) as a list of structured entries.  JSON documents
(the `details` payloads) are modelled structurally by the same value type:
the source serializes payloads with `json.dumps` and reads them back with
`json.loads` (`parse_audit_details`); the model stores the parsed form of
the written text.  The 14000-character cap on the serialized payload is
modelled exactly through its serialized length (`json_dumps_len`): a capped
payload is stored as unparseable text, because a strict prefix of the
serialization of a JSON object is never itself valid JSON.

Clock reads (`iso()`) are modelled by an explicit `now : String` parameter
passed to every operation.  String primitives (trim, lower, slicing) are
re-implemented over character lists so that every definition reduces inside
the kernel.
-/

/-- A JSON-ish scalar/document value: models both SQLite cell values
(NULL / INTEGER / TEXT) and the parsed JSON payload documents held in
`audit_log.details`.  Python dictionaries are `obj` association lists
(JSON parsing in Python yields dictionaries with unique keys). -/
inductive Jx where
  | null : Jx
  | int : Int → Jx
  | str : String → Jx
  | obj : List (String × Jx) → Jx
deriving Repr

/-- Boolean equality on values (spelled out because of the nested list). -/
def Jx.beq : Jx → Jx → Bool
  | .null, .null => true
  | .int a, .int b => a == b
  | .str a, .str b => a == b
  | .obj a, .obj b => beqList a b
  | _, _ => false
where
  beqList : List (String × Jx) → List (String × Jx) → Bool
    | [], [] => true
    | (k1, v1) :: t1, (k2, v2) :: t2 => k1 == k2 && beq v1 v2 && beqList t1 t2
    | _, _ => false

instance : BEq Jx := ⟨Jx.beq⟩

mutual

theorem Jx.beq_refl : ∀ (j : Jx), Jx.beq j j = true
  | .null => rfl
  | .int _ => by simp [Jx.beq]
  | .str _ => by simp [Jx.beq]
  | .obj kvs => by
      simp only [Jx.beq]
      exact Jx.beqList_refl kvs

theorem Jx.beqList_refl : ∀ (l : List (String × Jx)), Jx.beq.beqList l l = true
  | [] => rfl
  | (k, v) :: t => by
      simp only [Jx.beq.beqList, Bool.and_eq_true]
      exact ⟨⟨by simp, Jx.beq_refl v⟩, Jx.beqList_refl t⟩

end

mutual

theorem Jx.eq_of_beq : ∀ (a b : Jx), Jx.beq a b = true → a = b
  | .null, .null, _ => rfl
  | .null, .int _, h => by simp [Jx.beq] at h
  | .null, .str _, h => by simp [Jx.beq] at h
  | .null, .obj _, h => by simp [Jx.beq] at h
  | .int _, .null, h => by simp [Jx.beq] at h
  | .int _, .int _, h => by simp [Jx.beq] at h; simp [h]
  | .int _, .str _, h => by simp [Jx.beq] at h
  | .int _, .obj _, h => by simp [Jx.beq] at h
  | .str _, .null, h => by simp [Jx.beq] at h
  | .str _, .int _, h => by simp [Jx.beq] at h
  | .str _, .str _, h => by simp [Jx.beq] at h; simp [h]
  | .str _, .obj _, h => by simp [Jx.beq] at h
  | .obj _, .null, h => by simp [Jx.beq] at h
  | .obj _, .int _, h => by simp [Jx.beq] at h
  | .obj _, .str _, h => by simp [Jx.beq] at h
  | .obj a, .obj b, h => by
      simp only [Jx.beq] at h
      exact congrArg Jx.obj (Jx.eqList_of_beq a b h)

theorem Jx.eqList_of_beq :
    ∀ (a b : List (String × Jx)), Jx.beq.beqList a b = true → a = b
  | [], [], _ => rfl
  | [], _ :: _, h => by simp [Jx.beq.beqList] at h
  | _ :: _, [], h => by simp [Jx.beq.beqList] at h
  | (k1, v1) :: t1, (k2, v2) :: t2, h => by
      simp only [Jx.beq.beqList, Bool.and_eq_true] at h
      obtain ⟨⟨hk, hv⟩, ht⟩ := h
      have hk2 : k1 = k2 := by simpa using hk
      have hv2 : v1 = v2 := Jx.eq_of_beq v1 v2 hv
      have ht2 : t1 = t2 := Jx.eqList_of_beq t1 t2 ht
      rw [hk2, hv2, ht2]

end

instance : DecidableEq Jx := fun a b =>
  if h : Jx.beq a b then .isTrue (Jx.eq_of_beq a b h)
  else .isFalse (fun he => h (he ▸ Jx.beq_refl a))

instance : LawfulBEq Jx where
  eq_of_beq h := Jx.eq_of_beq _ _ h
  rfl := Jx.beq_refl _

/-- Python truthiness of a value (`None`, `0`, `""` and empty dicts are
falsy), as used by `if row["deleted_at"]` and the `or` chains. -/
def Jx.truthy : Jx → Bool
  | .null => false
  | .int n => n != 0
  | .str s => s != ""
  | .obj kvs => !kvs.isEmpty

/-- Python `a or b`: the left operand when truthy, otherwise the right. -/
def pyOr (a b : Jx) : Jx :=
  if a.truthy then a else b

/-- Python `str()` applied to a scalar.  For dictionaries Python would
produce the full repr (which always begins with a brace); every use in the
modelled code either compares the result with a table name or parses it as
an integer, for which only the leading brace matters, so the dict case is
abbreviated. -/
def Jx.pyStr : Jx → String
  | .null => "None"
  | .int n => toString n
  | .str s => s
  | .obj _ => "\x7b...\x7d"

/-- `str(value or "")`, the pattern used to read status/text columns. -/
def pyStrOrEmpty (v : Jx) : String :=
  (pyOr v (.str "")).pyStr

/-- Embeds an optional TEXT column (e.g. `audit_log.entity`) as a value. -/
def optJx : Option String → Jx
  | none => .null
  | some s => .str s

/-- First-match lookup in an association list (Python dict access /
`WHERE`-by-key lookup). -/
def alookup (k : String) : List (String × α) → Option α
  | [] => none
  | (k1, v) :: t => if k1 = k then some v else alookup k t

/-- `dict.get(key)`: the bound value, or `None` when the key is absent. -/
def jget (kvs : List (String × Jx)) (k : String) : Jx :=
  (alookup k kvs).getD .null

/-- Python `str.strip()` (ASCII whitespace; exotic Unicode whitespace is
not modelled). -/
def pyStrip (s : String) : String :=
  String.mk (((s.data.dropWhile Char.isWhitespace).reverse.dropWhile Char.isWhitespace).reverse)

/-- Python `str.lower()` (ASCII). -/
def pyLower (s : String) : String :=
  String.mk (s.data.map Char.toLower)

/-- Python `s[:n]` slicing (by code point). -/
def pyTake (s : String) (n : Nat) : String :=
  String.mk (s.data.take n)

/-- Decimal digits to the number they denote. -/
def digitsToNat (cs : List Char) : Nat :=
  cs.foldl (fun acc c => acc * 10 + (c.toNat - 48)) 0

/-- A non-empty all-digit character list, or failure. -/
def parseDigits (cs : List Char) : Option Nat :=
  if !cs.isEmpty && cs.all Char.isDigit then some (digitsToNat cs) else none

/-- `to_int` from `app/server.py`: `int(value)` with `None`/empty input
returning the default `None`.  Python's `int` strips surrounding
whitespace and accepts an optional sign; exotic forms (underscore digit
grouping, non-ASCII digits) are not modelled. -/
def to_int (s : String) : Option Int :=
  match (pyStrip s).data with
  | [] => none
  | c :: rest =>
    if c = '-' then (parseDigits rest).map (fun n => -(n : Int))
    else if c = '+' then (parseDigits rest).map (fun n => (n : Int))
    else (parseDigits (c :: rest)).map (fun n => (n : Int))

example : to_int "42" = some 42 := by decide
example : to_int " -7 " = some (-7) := by decide
example : to_int "users" = none := by decide
example : to_int "" = none := by decide
example : pyStrip "  users " = "users" := by decide
example : pyLower "Task" = "task" := by decide

/-! ## Relational store and audit ledger state -/

/-- A row: association list from column name to cell value (a `sqlite3.Row`
seen through `row.keys()` / `row[key]`). -/
abbrev Row := List (String × Jx)

/-- `row[key]`: the cell value, `NULL`-defaulting for absent columns. -/
def rowGet (r : Row) (k : String) : Jx :=
  (alookup k r).getD .null

/-- One entity table: its declared column set (`PRAGMA table_info`) and its
rows. -/
structure Table where
  columns : List String
  rows : List Row
deriving Repr, DecidableEq

/-- One `audit_log` row (the fixed schema of the ledger table). -/
structure AuditRow where
  id : Int
  organization_id : Option Int
  user_id : Option Int
  action : String
  entity : Option String
  entity_id : Option String
  details : Jx
  created_at : String
deriving Repr, DecidableEq

/-- The store: named entity tables plus the append-only audit ledger. -/
structure St where
  tables : List (String × Table)
  audit : List AuditRow
deriving Repr, DecidableEq

/-- Table lookup by name. -/
def getTable (st : St) (name : String) : Option Table :=
  alookup name st.tables

/-- `table_columns` from `app/server.py` (`PRAGMA table_info(table)`);
an unknown table yields no columns. -/
def table_columns (st : St) (table : String) : List String :=
  match getTable st table with
  | none => []
  | some t => t.columns

/-- The row predicate of `WHERE id = ? AND organization_id = ?`. -/
def rowMatches (eid org : Int) (r : Row) : Bool :=
  rowGet r "id" = Jx.int eid ∧ rowGet r "organization_id" = Jx.int org

/-- `SELECT * FROM table WHERE id = ? AND organization_id = ?` followed by
`fetchone()`: the first matching row, if any. -/
def selectRow (st : St) (table : String) (eid org : Int) : Option Row :=
  (getTable st table).bind (fun t => t.rows.find? (rowMatches eid org))

/-- Helper of `setKV`: replace every binding of `k` without appending. -/
def setKVReplace : Row → String → Jx → Row
  | [], _, _ => []
  | (k1, w) :: t, k, v =>
    if k1 = k then (k, v) :: setKVReplace t k v else (k1, w) :: setKVReplace t k v

/-- Python dict assignment `d[k] = v` / SQL `SET k = ?` on one row:
replace the binding of `k` in place (keys are unique in every real row
and payload), appending a fresh binding when the key is absent. -/
def setKV : Row → String → Jx → Row
  | [], k, v => [(k, v)]
  | (k1, w) :: t, k, v =>
    if k1 = k then (k, v) :: setKVReplace t k v else (k1, w) :: setKV t k v

/-- Apply a list of assignments in order. -/
def setKVs (r : Row) (asg : List (String × Jx)) : Row :=
  asg.foldl (fun acc kv => setKV acc kv.1 kv.2) r

/-- Rewrite one named table of the store in place. -/
def mapTable (st : St) (table : String) (f : Table → Table) : St :=
  { st with
    tables := st.tables.map (fun nt => if nt.1 = table then (nt.1, f nt.2) else nt) }

/-- `UPDATE table SET ... WHERE id = ? AND organization_id = ?`. -/
def updateWhere (st : St) (table : String) (eid org : Int)
    (asg : List (String × Jx)) : St :=
  mapTable st table (fun t =>
    { t with rows := t.rows.map (fun r => if rowMatches eid org r then setKVs r asg else r) })

/-- `DELETE FROM table WHERE id = ? AND organization_id = ?`. -/
def deleteWhere (st : St) (table : String) (eid org : Int) : St :=
  mapTable st table (fun t =>
    { t with rows := t.rows.filter (fun r => !(rowMatches eid org r)) })

/-- `INSERT INTO table (...) VALUES (...)`: append a row holding exactly
the given column bindings (unnamed columns read back as `NULL`). -/
def insertRow (st : St) (table : String) (r : Row) : St :=
  mapTable st table (fun t => { t with rows := t.rows ++ [r] })

/-- The next `audit_log.id` (AUTOINCREMENT primary key). -/
def nextAuditId (st : St) : Int :=
  (st.audit.map (fun a => a.id)).foldl max 0 + 1

/-! ## The embedded source functions -/

/-- `AUDIT_ROLLBACK_TABLES` from `app/server.py`: the reversibility
allow-list (a Python set; membership is all that matters). -/
def AUDIT_ROLLBACK_TABLES : List String :=
  ["tasks", "projects", "intake_requests", "equipment_assets", "consumables",
   "partnerships", "meeting_agendas", "meeting_items", "teams", "spaces",
   "role_nav_preferences", "field_configs"]

/-- `snapshot_row` from `app/server.py`: materialize a full row (or `None`)
as a field-to-value mapping.  `_snapshot_value` normalizes
`datetime`/`date` cells to ISO strings; model cells are already serialized
scalars, so the normalization is the identity here. -/
def snapshot_row (row : Option Row) : Option Row :=
  row

/-- `parse_audit_details` from `app/server.py`: the payload document when
`details` parses to a dict, `{}` otherwise (absent details, plain-text
details and non-dict JSON all yield `{}`). -/
def parse_audit_details (details : Jx) : List (String × Jx) :=
  match details with
  | .obj kvs => kvs
  | _ => []

/-- `log_action` from `app/server.py`: append one immutable audit entry. -/
def log_action (st : St) (now : String) (organization_id user_id : Option Int)
    (action : String) (entity entity_id : Option String) (details : Jx) : St :=
  { st with
    audit := st.audit ++
      [{ id := nextAuditId st
         organization_id := organization_id
         user_id := user_id
         action := action
         entity := entity
         entity_id := entity_id
         details := details
         created_at := now }] }

/-- Serialized length of one character of a JSON string under
`json.dumps(..., ensure_ascii=True)`: quote and backslash escape to two
characters, the short control escapes (backspace, tab, newline, form feed,
carriage return) to two, printable ASCII stands for itself, and every
other character becomes `\uXXXX` per UTF-16 code unit (two units, twelve
characters, beyond the basic plane). -/
def escLen (c : Char) : Nat :=
  if c = '"' ∨ c = '\\' then 2
  else if c.toNat = 8 ∨ c.toNat = 9 ∨ c.toNat = 10 ∨ c.toNat = 12 ∨ c.toNat = 13 then 2
  else if 32 ≤ c.toNat ∧ c.toNat ≤ 126 then 1
  else if c.toNat ≤ 65535 then 6
  else 12

/-- Serialized length of a JSON string literal, quotes included. -/
def jsonStrLen (s : String) : Nat :=
  2 + (s.data.map escLen).foldr (fun a b => a + b) 0

mutual

/-- `len(json.dumps(v, ensure_ascii=True))` with the default separators
(`", "` between entries, `": "` after a key). -/
def json_dumps_len : Jx → Nat
  | .null => 4
  | .int n => (toString n).length
  | .str s => jsonStrLen s
  | .obj kvs => 2 + jsonEntriesLen kvs

/-- Serialized length of the comma-joined `"key": value` entries. -/
def jsonEntriesLen : List (String × Jx) → Nat
  | [] => 0
  | [(k, v)] => jsonStrLen k + 2 + json_dumps_len v
  | (k, v) :: t => jsonStrLen k + 2 + json_dumps_len v + 2 + jsonEntriesLen t

end

/-- The `json.dumps(payload, ensure_ascii=True)[:14000]` step of the ledger
writer, seen through the parse that every reader applies: when the
serialization fits the cap the slice is the identity and the stored text
parses back to the payload; when it does not, the stored text is a strict
prefix of the serialization of a JSON object, which is never valid JSON
(the outer brace closes only at the final character), so `json.loads`
fails on it and `parse_audit_details` yields the empty dict.  The model
stores the payload itself in the first case and an unparseable text
placeholder in the second. -/
def truncate_details (payload : Jx) : Jx :=
  if json_dumps_len payload ≤ 14000 then payload else Jx.str "<truncated json>"

/-- The payload dict built by `log_change_with_rollback` (server.py
2594-2612): source, capped summary, before/after snapshots, and the
`rollback` sub-object exactly when the table is on the allow-list. -/
def log_change_payload (table : String) (entity_id : Int)
    (before after : Option Row) (summary source : String) : List (String × Jx) :=
  [("source", .str source),
   ("summary", .str (pyTake summary 220)),
   ("before", match before with | none => Jx.null | some r => Jx.obj r),
   ("after", match after with | none => Jx.null | some r => Jx.obj r)] ++
  (if AUDIT_ROLLBACK_TABLES.contains table then
    [("rollback", Jx.obj
      [("table", .str table),
       ("entity_id", .str (toString entity_id)),
       ("before", match before with | none => Jx.null | some r => Jx.obj r)])]
   else [])

/-- `log_change_with_rollback` from `app/server.py`: build the structured
payload, serialize it with the 14000-character cap, and append the ledger
entry via `log_action`. -/
def log_change_with_rollback (st : St) (now : String) (org_id user_id : Int)
    (action table : String) (entity_id : Int) (before after : Option Row)
    (summary source : String) : St :=
  log_action st now (some org_id) (some user_id) action (some table)
    (some (toString entity_id))
    (truncate_details (.obj (log_change_payload table entity_id before after summary source)))

/-- The target-table computation of `rollback_audit_entry`:
`str(rollback.get("table") or row["entity"] or "").strip()` — the payload's
claimed table, falling back to the audit row's `entity` column. -/
def rollback_table (rkvs : List (String × Jx)) (entity : Option String) : String :=
  pyStrip (pyOr (jget rkvs "table") (pyOr (optJx entity) (.str ""))).pyStr

/-- The target-id computation of `rollback_audit_entry`:
`to_int(str(rollback.get("entity_id") or row["entity_id"] or ""))`. -/
def rollback_entity_id (rkvs : List (String × Jx)) (entity_id : Option String) : Option Int :=
  to_int (pyOr (jget rkvs "entity_id") (pyOr (optJx entity_id) (.str ""))).pyStr

/-- The restore-values computation of `rollback_audit_entry`
(server.py 2682-2686): keep every snapshot field present in the current
column set other than `id`, then force `organization_id` to the caller's
tenant and refresh `updated_at` when that column exists. -/
def rollback_restore_values (columns : List String) (bkvs : List (String × Jx))
    (org_id : Int) (now : String) : List (String × Jx) :=
  let rv0 := bkvs.filter (fun kv => columns.contains kv.1 && kv.1 ≠ "id")
  let rv1 := setKV rv0 "organization_id" (Jx.int org_id)
  if columns.contains "updated_at" then setKV rv1 "updated_at" (Jx.str now) else rv1

/-- The boolean test of `SELECT ... FROM audit_log WHERE id = ? AND
organization_id = ?`. -/
def auditMatch (audit_id org : Int) (a : AuditRow) : Bool :=
  a.id = audit_id ∧ a.organization_id = some org

/-- `rollback_audit_entry` from `app/server.py`: the Rollback Engine.
Returns the post-state together with the source's `(ok, message)` pair.
The source checks `before is not None and not isinstance(before, dict)`
before resolving the column set; here the non-null non-dict case is the
final match arm, which returns the same error on exactly the same inputs. -/
def rollback_audit_entry (st : St) (now : String) (org_id actor_user_id audit_id : Int) :
    St × Bool × String :=
  match st.audit.find? (auditMatch audit_id org_id) with
  | none => (st, false, "Audit entry not found")
  | some row =>
    match jget (parse_audit_details row.details) "rollback" with
    | .obj rkvs =>
      let table := rollback_table rkvs row.entity
      if !(AUDIT_ROLLBACK_TABLES.contains table) then
        (st, false, "Rollback table is not allowed")
      else
        match rollback_entity_id rkvs row.entity_id with
        | none => (st, false, "Rollback target id is invalid")
        | some entity_id =>
          match jget rkvs "before" with
          | .null =>
            -- Create rollback (before snapshot missing): soft-delete or
            -- hard-delete the target row.
            let columns := table_columns st table
            if !(columns.contains "id") || !(columns.contains "organization_id") then
              (st, false, "Rollback target table is unsupported")
            else
              match selectRow st table entity_id org_id with
              | none => (st, false, "Target row no longer exists")
              | some _ =>
                let st1 :=
                  if columns.contains "deleted_at" then
                    updateWhere st table entity_id org_id
                      ([("deleted_at", Jx.str now)] ++
                       (if columns.contains "deleted_by_user_id" then
                          [("deleted_by_user_id", Jx.int actor_user_id)] else []) ++
                       (if columns.contains "updated_at" then
                          [("updated_at", Jx.str now)] else []))
                  else deleteWhere st table entity_id org_id
                let st2 := log_action st1 now (some org_id) (some actor_user_id)
                  "audit_rollback_applied" (some table) (some (toString entity_id))
                  (.str ("Reverted create from audit #" ++ toString audit_id))
                (st2, true, "Rollback applied")
          | .obj bkvs =>
            -- Update rollback: restore the "before" snapshot into the
            -- current row (or recreate it if missing).
            let columns := table_columns st table
            if !(columns.contains "id") || !(columns.contains "organization_id") then
              (st, false, "Rollback target table is unsupported")
            else
              let rv2 := rollback_restore_values columns bkvs org_id now
              match selectRow st table entity_id org_id with
              | some _ =>
                if rv2.isEmpty then (st, false, "No restorable fields on this entry")
                else
                  let st1 := updateWhere st table entity_id org_id rv2
                  let st2 := log_action st1 now (some org_id) (some actor_user_id)
                    "audit_rollback_applied" (some table) (some (toString entity_id))
                    (.str ("Restored snapshot from audit #" ++ toString audit_id))
                  (st2, true, "Rollback applied")
              | none =>
                let rv3 := setKV rv2 "id" (Jx.int entity_id)
                let ins := rv3.filter (fun kv => columns.contains kv.1)
                let st1 := insertRow st table ins
                let st2 := log_action st1 now (some org_id) (some actor_user_id)
                  "audit_rollback_applied" (some table) (some (toString entity_id))
                  (.str ("Restored snapshot from audit #" ++ toString audit_id))
                (st2, true, "Rollback applied")
          | _ => (st, false, "Rollback snapshot is invalid")
    | _ => (st, false, "This audit entry cannot be rolled back")

/-! ## Policy registry and soft-delete lifecycle -/

/-- `DeletePolicy`: one entry of the per-entity-type registry. -/
structure DeletePolicy where
  label : String
  table : String
  title_field : String
  status_field : String
  updated_field : String
  min_role : String
  ready_statuses : List String
deriving Repr, DecidableEq

/-- `DELETE_POLICY` from `app/server.py`, as the key/policy association. -/
def DELETE_POLICY : List (String × DeletePolicy) :=
  [("task",
    { label := "Tasks", table := "tasks", title_field := "title",
      status_field := "status", updated_field := "updated_at",
      min_role := "student", ready_statuses := ["Cancelled"] }),
   ("project",
    { label := "Projects", table := "projects", title_field := "name",
      status_field := "status", updated_field := "updated_at",
      min_role := "staff", ready_statuses := ["Cancelled"] }),
   ("intake",
    { label := "Intake", table := "intake_requests", title_field := "title",
      status_field := "status", updated_field := "updated_at",
      min_role := "staff", ready_statuses := ["Rejected"] }),
   ("asset",
    { label := "Assets", table := "equipment_assets", title_field := "name",
      status_field := "status", updated_field := "updated_at",
      min_role := "staff", ready_statuses := ["Down"] }),
   ("consumable",
    { label := "Consumables", table := "consumables", title_field := "name",
      status_field := "status", updated_field := "updated_at",
      min_role := "staff", ready_statuses := ["Out"] }),
   ("partnership",
    { label := "Partnerships", table := "partnerships", title_field := "partner_name",
      status_field := "stage", updated_field := "updated_at",
      min_role := "staff", ready_statuses := ["Closed"] })]

/-- `delete_policy_for_entity` from `app/server.py`:
`DELETE_POLICY.get(str(entity or "").strip().lower())`. -/
def delete_policy_for_entity (entity : String) : Option DeletePolicy :=
  alookup (pyLower (pyStrip entity)) DELETE_POLICY

/-- `entity_soft_delete` from `app/server.py`: policy-gated soft deletion.
The source reads the policy's `updated_field` with a `"updated_at"`
default; every registry entry sets it explicitly, so the default is the
field value here. -/
def entity_soft_delete (st : St) (now : String) (org_id actor_user_id : Int)
    (entity : String) (item_id : Int) : St × Bool × String :=
  match delete_policy_for_entity entity with
  | none => (st, false, "invalid_entity")
  | some p =>
    match selectRow st p.table item_id org_id with
    | none => (st, false, "not_found")
    | some row =>
      if (rowGet row "deleted_at").truthy then (st, false, "already_deleted")
      else
        let current_status := pyStrOrEmpty (rowGet row p.status_field)
        if !p.ready_statuses.isEmpty && !(p.ready_statuses.contains current_status) then
          (st, false, "status_required:" ++ String.intercalate "|" p.ready_statuses)
        else
          let full_before := snapshot_row (selectRow st p.table item_id org_id)
          let st1 := updateWhere st p.table item_id org_id
            [("deleted_at", .str now), ("deleted_by_user_id", .int actor_user_id),
             (p.updated_field, .str now)]
          let full_after := snapshot_row (selectRow st1 p.table item_id org_id)
          let st2 := log_change_with_rollback st1 now org_id actor_user_id
            "item_soft_deleted" p.table item_id full_before full_after
            (p.label ++ ": " ++ (rowGet row p.title_field).pyStr) "delete-workflow"
          (st2, true, "ok")

/-- `restore_soft_deleted_entity` from `app/server.py`: clear the
deleted-marker of a soft-deleted record. -/
def restore_soft_deleted_entity (st : St) (now : String) (org_id actor_user_id : Int)
    (entity : String) (item_id : Int) : St × Bool × String :=
  match delete_policy_for_entity entity with
  | none => (st, false, "invalid_entity")
  | some p =>
    match selectRow st p.table item_id org_id with
    | none => (st, false, "not_found")
    | some row =>
      if !(rowGet row "deleted_at").truthy then (st, false, "not_deleted")
      else
        let full_before := snapshot_row (selectRow st p.table item_id org_id)
        let st1 := updateWhere st p.table item_id org_id
          [("deleted_at", .null), ("deleted_by_user_id", .null),
           (p.updated_field, .str now)]
        let full_after := snapshot_row (selectRow st1 p.table item_id org_id)
        let st2 := log_change_with_rollback st1 now org_id actor_user_id
          "item_restored" p.table item_id full_before full_after p.label "delete-workflow"
        (st2, true, "ok")

/-- `purge_soft_deleted_entity` from `app/server.py`: physically remove a
soft-deleted record. -/
def purge_soft_deleted_entity (st : St) (now : String) (org_id actor_user_id : Int)
    (entity : String) (item_id : Int) : St × Bool × String :=
  match delete_policy_for_entity entity with
  | none => (st, false, "invalid_entity")
  | some p =>
    match selectRow st p.table item_id org_id with
    | none => (st, false, "not_found")
    | some row =>
      if !(rowGet row "deleted_at").truthy then (st, false, "not_deleted")
      else
        let full_before := snapshot_row (selectRow st p.table item_id org_id)
        let st1 := deleteWhere st p.table item_id org_id
        let st2 := log_change_with_rollback st1 now org_id actor_user_id
          "item_purged" p.table item_id full_before none p.label "delete-workflow"
        (st2, true, "ok")


/-! ## Association-list lemmas -/

theorem alookup_mem {k : String} {v : α} :
    ∀ {l : List (String × α)}, alookup k l = some v → (k, v) ∈ l := by
  intro l
  induction l with
  | nil => intro h; simp [alookup] at h
  | cons kv t ih =>
    intro h
    match kv with
    | (k1, w) =>
      rw [alookup] at h
      by_cases hk : k1 = k
      · rw [if_pos hk] at h
        cases h
        rw [hk]
        exact List.mem_cons_self _ _
      · rw [if_neg hk] at h
        exact List.mem_cons_of_mem _ (ih h)

theorem alookup_setKVReplace_other (k k2 : String) (v : Jx) (h : k2 ≠ k) :
    ∀ (r : Row), alookup k2 (setKVReplace r k v) = alookup k2 r
  | [] => rfl
  | (k1, w) :: t => by
    rw [setKVReplace]
    by_cases hk : k1 = k
    · have h1 : ¬(k = k2) := fun he => h he.symm
      have h2 : ¬(k1 = k2) := fun he => h (he ▸ hk)
      rw [if_pos hk]
      simp only [alookup, if_neg h1, if_neg h2]
      exact alookup_setKVReplace_other k k2 v h t
    · rw [if_neg hk]
      simp only [alookup]
      by_cases hk2 : k1 = k2
      · rw [if_pos hk2, if_pos hk2]
      · rw [if_neg hk2, if_neg hk2]
        exact alookup_setKVReplace_other k k2 v h t

theorem alookup_setKV_self (k : String) (v : Jx) :
    ∀ (r : Row), alookup k (setKV r k v) = some v
  | [] => by simp [setKV, alookup]
  | (k1, w) :: t => by
    rw [setKV]
    by_cases hk : k1 = k
    · rw [if_pos hk, alookup, if_pos rfl]
    · rw [if_neg hk, alookup, if_neg hk]
      exact alookup_setKV_self k v t

theorem alookup_setKV_other (k k2 : String) (v : Jx) (h : k2 ≠ k) :
    ∀ (r : Row), alookup k2 (setKV r k v) = alookup k2 r
  | [] => by
    have h1 : ¬(k = k2) := fun he => h he.symm
    simp [setKV, alookup, h1]
  | (k1, w) :: t => by
    rw [setKV]
    by_cases hk : k1 = k
    · have h1 : ¬(k = k2) := fun he => h he.symm
      have h2 : ¬(k1 = k2) := fun he => h (he ▸ hk)
      rw [if_pos hk]
      simp only [alookup, if_neg h1, if_neg h2]
      exact alookup_setKVReplace_other k k2 v h t
    · rw [if_neg hk]
      simp only [alookup]
      by_cases hk2 : k1 = k2
      · rw [if_pos hk2, if_pos hk2]
      · rw [if_neg hk2, if_neg hk2]
        exact alookup_setKV_other k k2 v h t

theorem rowGet_setKV_self (r : Row) (k : String) (v : Jx) :
    rowGet (setKV r k v) k = v := by
  unfold rowGet
  rw [alookup_setKV_self]
  rfl

theorem rowGet_setKV_other (r : Row) (k k2 : String) (v : Jx) (h : k2 ≠ k) :
    rowGet (setKV r k v) k2 = rowGet r k2 := by
  unfold rowGet
  rw [alookup_setKV_other k k2 v h]

theorem mem_setKVReplace (k k2 : String) (v v2 : Jx) :
    ∀ (r : Row), (k2, v2) ∈ setKVReplace r k v → (k2 = k ∧ v2 = v) ∨ (k2, v2) ∈ r
  | [] => by simp [setKVReplace]
  | (k1, w) :: t => by
    rw [setKVReplace]
    by_cases hk : k1 = k
    · rw [if_pos hk]
      intro hm
      rcases List.mem_cons.mp hm with hm | hm
      · left
        exact ⟨congrArg Prod.fst hm, congrArg Prod.snd hm⟩
      · rcases mem_setKVReplace k k2 v v2 t hm with h | h
        · exact Or.inl h
        · exact Or.inr (List.mem_cons_of_mem _ h)
    · rw [if_neg hk]
      intro hm
      rcases List.mem_cons.mp hm with hm | hm
      · exact Or.inr (hm ▸ List.mem_cons_self _ _)
      · rcases mem_setKVReplace k k2 v v2 t hm with h | h
        · exact Or.inl h
        · exact Or.inr (List.mem_cons_of_mem _ h)

theorem mem_setKV (k k2 : String) (v v2 : Jx) :
    ∀ (r : Row), (k2, v2) ∈ setKV r k v → (k2 = k ∧ v2 = v) ∨ (k2, v2) ∈ r
  | [] => by
    intro hm
    simp only [setKV, List.mem_singleton] at hm
    exact Or.inl ⟨congrArg Prod.fst hm, congrArg Prod.snd hm⟩
  | (k1, w) :: t => by
    rw [setKV]
    by_cases hk : k1 = k
    · rw [if_pos hk]
      intro hm
      rcases List.mem_cons.mp hm with hm | hm
      · exact Or.inl ⟨congrArg Prod.fst hm, congrArg Prod.snd hm⟩
      · rcases mem_setKVReplace k k2 v v2 t hm with h | h
        · exact Or.inl h
        · exact Or.inr (List.mem_cons_of_mem _ h)
    · rw [if_neg hk]
      intro hm
      rcases List.mem_cons.mp hm with hm | hm
      · exact Or.inr (hm ▸ List.mem_cons_self _ _)
      · rcases mem_setKV k k2 v v2 t hm with h | h
        · exact Or.inl h
        · exact Or.inr (List.mem_cons_of_mem _ h)

theorem rowGet_setKVs_not_mem (asg : List (String × Jx)) (r : Row) (k : String)
    (h : ∀ v, (k, v) ∉ asg) :
    rowGet (setKVs r asg) k = rowGet r k := by
  induction asg generalizing r with
  | nil => rfl
  | cons kv t ih =>
    rw [setKVs, List.foldl_cons]
    have hk : k ≠ kv.1 := fun he => h kv.2 (by rw [he]; exact List.mem_cons_self _ _)
    have step := ih (setKV r kv.1 kv.2) (fun v hv => h v (List.mem_cons_of_mem _ hv))
    rw [setKVs] at step
    rw [step, rowGet_setKV_other _ _ _ _ hk]

theorem rowGet_setKVs_forced (asg : List (String × Jx)) (r : Row) (k : String) (w : Jx)
    (hall : ∀ v, (k, v) ∈ asg → v = w) (hr : rowGet r k = w) :
    rowGet (setKVs r asg) k = w := by
  induction asg generalizing r with
  | nil => exact hr
  | cons kv t ih =>
    rw [setKVs, List.foldl_cons]
    have step : rowGet (setKV r kv.1 kv.2) k = w := by
      by_cases hk : k = kv.1
      · rw [hk, rowGet_setKV_self]
        exact hall kv.2 (by rw [hk]; simp)
      · rw [rowGet_setKV_other _ _ _ _ hk]
        exact hr
    have := ih (setKV r kv.1 kv.2) (fun v hv => hall v (List.mem_cons_of_mem _ hv)) step
    rw [setKVs] at this
    exact this

theorem find?_map_ite (l : List Row) (pred : Row → Bool) (f : Row → Row)
    (hf : ∀ r, pred r = true → pred (f r) = true) :
    (l.map (fun r => if pred r then f r else r)).find? pred = (l.find? pred).map f := by
  induction l with
  | nil => rfl
  | cons r t ih =>
    simp only [List.map_cons]
    by_cases hr : pred r = true
    · rw [if_pos hr, List.find?_cons_of_pos _ (hf r hr), List.find?_cons_of_pos _ hr]
      rfl
    · have hr2 : pred r = false := by
        cases hp : pred r
        · rfl
        · exact absurd hp hr
      rw [if_neg hr, List.find?_cons_of_neg _ (by simp [hr2]),
        List.find?_cons_of_neg _ (by simp [hr2])]
      exact ih

theorem find?_filter_not (l : List Row) (pred : Row → Bool) :
    (l.filter (fun r => !(pred r))).find? pred = none := by
  induction l with
  | nil => rfl
  | cons r t ih =>
    by_cases hr : pred r = true
    · rw [List.filter_cons_of_neg (by simp [hr])]
      exact ih
    · have hr2 : pred r = false := by
        cases hp : pred r
        · rfl
        · exact absurd hp hr
      rw [List.filter_cons_of_pos (by simp [hr2]), List.find?_cons_of_neg _ (by simp [hr2])]
      exact ih

theorem filter_map_ite_excl (l : List Row) (q pred : Row → Bool) (f : Row → Row)
    (h1 : ∀ r, pred r = true → q r = false)
    (h2 : ∀ r, pred r = true → q (f r) = false) :
    (l.map (fun r => if pred r then f r else r)).filter q = l.filter q := by
  induction l with
  | nil => rfl
  | cons r t ih =>
    simp only [List.map_cons]
    by_cases hr : pred r = true
    · rw [if_pos hr, List.filter_cons_of_neg (by simp [h2 r hr]),
        List.filter_cons_of_neg (by simp [h1 r hr])]
      exact ih
    · rw [if_neg hr]
      by_cases hq : q r = true
      · rw [List.filter_cons_of_pos hq, List.filter_cons_of_pos hq, ih]
      · have hq2 : q r = false := by
          cases hp : q r
          · rfl
          · exact absurd hp hq
        rw [List.filter_cons_of_neg (by simp [hq2]), List.filter_cons_of_neg (by simp [hq2])]
        exact ih

theorem filter_filter_not_excl (l : List Row) (q pred : Row → Bool)
    (h1 : ∀ r, pred r = true → q r = false) :
    (l.filter (fun r => !(pred r))).filter q = l.filter q := by
  induction l with
  | nil => rfl
  | cons r t ih =>
    by_cases hr : pred r = true
    · rw [List.filter_cons_of_neg (by simp [hr]), List.filter_cons_of_neg (by simp [h1 r hr])]
      exact ih
    · have hr2 : pred r = false := by
        cases hp : pred r
        · rfl
        · exact absurd hp hr
      rw [List.filter_cons_of_pos (by simp [hr2])]
      by_cases hq : q r = true
      · rw [List.filter_cons_of_pos hq, List.filter_cons_of_pos hq, ih]
      · have hq2 : q r = false := by
          cases hp : q r
          · rfl
          · exact absurd hp hq
        rw [List.filter_cons_of_neg (by simp [hq2]), List.filter_cons_of_neg (by simp [hq2])]
        exact ih

theorem map_map_ite (l : List Row) (pred : Row → Bool) (f : Row → Row) (g : Row → Jx)
    (h : ∀ r, pred r = true → g (f r) = g r) :
    (l.map (fun r => if pred r then f r else r)).map g = l.map g := by
  induction l with
  | nil => rfl
  | cons r t ih =>
    simp only [List.map_cons]
    by_cases hr : pred r = true
    · rw [if_pos hr, h r hr, ih]
    · rw [if_neg hr, ih]

/-! ## Frame/property helper definitions -/

/-- The rows of every table that belong to tenants other than `org`
(the part of the store every `org`-scoped operation must leave alone). -/
def otherTenantRows (st : St) (org : Int) : List (String × List Row) :=
  st.tables.map (fun nt =>
    (nt.1, nt.2.rows.filter (fun r => !(rowGet r "organization_id" = Jx.int org))))

/-- The `id` column of every row of every table, in order (an operation
that never rewrites identities preserves this). -/
def idsPerTable (st : St) : List (String × List Jx) :=
  st.tables.map (fun nt => (nt.1, nt.2.rows.map (fun r => rowGet r "id")))

/-- No active (non-soft-deleted) row with this id remains for this tenant. -/
def noActiveWithId (st : St) (tbl : String) (eid org : Int) : Bool :=
  match getTable st tbl with
  | none => true
  | some t => t.rows.all (fun r => !(rowMatches eid org r) || (rowGet r "deleted_at").truthy)

/-- No row at all with this id remains for this tenant. -/
def noRowWithId (st : St) (tbl : String) (eid org : Int) : Bool :=
  match getTable st tbl with
  | none => true
  | some t => t.rows.all (fun r => !(rowMatches eid org r))

/-- The two rows agree on every field outside `ex` (checked over all keys
bound in either row; keys bound in neither read `NULL` on both sides). -/
def agreesExcept (r r2 : Row) (ex : List String) : Bool :=
  (r.map Prod.fst ++ r2.map Prod.fst).all
    (fun k => ex.contains k || rowGet r k == rowGet r2 k)

theorem tables_log_action (st : St) (now : String) (o u : Option Int) (a : String)
    (e ei : Option String) (d : Jx) :
    (log_action st now o u a e ei d).tables = st.tables := rfl

theorem audit_log_action (st : St) (now : String) (o u : Option Int) (a : String)
    (e ei : Option String) (d : Jx) :
    ∃ row, (log_action st now o u a e ei d).audit = st.audit ++ [row] ∧
      row.action = a ∧ row.organization_id = o ∧ row.details = d :=
  ⟨_, rfl, rfl, rfl, rfl⟩

theorem tables_log_change (st : St) (now : String) (org_id user_id : Int)
    (action table : String) (entity_id : Int) (before after : Option Row)
    (summary source : String) :
    (log_change_with_rollback st now org_id user_id action table entity_id
      before after summary source).tables = st.tables := rfl

theorem otherTenantRows_tables_eq (st st2 : St) (org : Int) (h : st2.tables = st.tables) :
    otherTenantRows st2 org = otherTenantRows st org := by
  unfold otherTenantRows
  rw [h]

theorem idsPerTable_tables_eq (st st2 : St) (h : st2.tables = st.tables) :
    idsPerTable st2 = idsPerTable st := by
  unfold idsPerTable
  rw [h]

theorem rowMatches_org (eid org : Int) (r : Row) (h : rowMatches eid org r = true) :
    rowGet r "organization_id" = Jx.int org := by
  unfold rowMatches at h
  simp only [decide_eq_true_eq] at h
  exact h.2

theorem rowMatches_id (eid org : Int) (r : Row) (h : rowMatches eid org r = true) :
    rowGet r "id" = Jx.int eid := by
  unfold rowMatches at h
  simp only [decide_eq_true_eq] at h
  exact h.1

theorem otherTenantRows_updateWhere (st : St) (tbl : String) (eid org : Int)
    (asg : List (String × Jx))
    (hasg : ∀ v, ("organization_id", v) ∈ asg → v = Jx.int org) :
    otherTenantRows (updateWhere st tbl eid org asg) org = otherTenantRows st org := by
  unfold otherTenantRows updateWhere mapTable
  simp only [List.map_map]
  apply List.map_congr_left
  intro nt _
  by_cases ht : nt.1 = tbl
  · simp only [Function.comp, if_pos ht]
    congr 1
    apply filter_map_ite_excl
    · intro r hr
      simp [rowMatches_org eid org r hr]
    · intro r hr
      have : rowGet (setKVs r asg) "organization_id" = Jx.int org :=
        rowGet_setKVs_forced asg r "organization_id" (Jx.int org) hasg
          (rowMatches_org eid org r hr)
      simp [this]
  · simp [Function.comp, if_neg ht]

theorem otherTenantRows_deleteWhere (st : St) (tbl : String) (eid org : Int) :
    otherTenantRows (deleteWhere st tbl eid org) org = otherTenantRows st org := by
  unfold otherTenantRows deleteWhere mapTable
  simp only [List.map_map]
  apply List.map_congr_left
  intro nt _
  by_cases ht : nt.1 = tbl
  · simp only [Function.comp, if_pos ht]
    congr 1
    apply filter_filter_not_excl
    intro r hr
    simp [rowMatches_org eid org r hr]
  · simp [Function.comp, if_neg ht]

theorem otherTenantRows_insertRow (st : St) (tbl : String) (org : Int) (r : Row)
    (hr : rowGet r "organization_id" = Jx.int org) :
    otherTenantRows (insertRow st tbl r) org = otherTenantRows st org := by
  unfold otherTenantRows insertRow mapTable
  simp only [List.map_map]
  apply List.map_congr_left
  intro nt _
  by_cases ht : nt.1 = tbl
  · simp only [Function.comp, if_pos ht]
    congr 1
    rw [List.filter_append]
    simp [hr]
  · simp [Function.comp, if_neg ht]

theorem idsPerTable_updateWhere (st : St) (tbl : String) (eid org : Int)
    (asg : List (String × Jx)) (hasg : ∀ v, ("id", v) ∉ asg) :
    idsPerTable (updateWhere st tbl eid org asg) = idsPerTable st := by
  unfold idsPerTable updateWhere mapTable
  simp only [List.map_map]
  apply List.map_congr_left
  intro nt _
  by_cases ht : nt.1 = tbl
  · simp only [Function.comp, if_pos ht]
    congr 1
    apply map_map_ite
    intro r _
    exact rowGet_setKVs_not_mem asg r "id" hasg
  · simp [Function.comp, if_neg ht]

/-! ## Claim theorems -/

/-- C1: an audit entry whose `rollback` object names a table that is not on
the reversibility allow-list (e.g. `rollback.table = "users"`) is always
rejected by `rollback_audit_entry` with the table-not-allowed error, with
no state change, however well-formed the rest of the payload is. -/
theorem rollback_rejects_disallowed_table (st : St) (now : String)
    (org actor aid : Int) (row : AuditRow) (rkvs : List (String × Jx)) (s : String)
    (hf : st.audit.find? (auditMatch aid org) = some row)
    (hrb : jget (parse_audit_details row.details) "rollback" = .obj rkvs)
    (htab : jget rkvs "table" = .str s)
    (hne : s ≠ "")
    (hnall : AUDIT_ROLLBACK_TABLES.contains (pyStrip s) = false) :
    rollback_audit_entry st now org actor aid =
      (st, false, "Rollback table is not allowed") := by
  have htable : rollback_table rkvs row.entity = pyStrip s := by
    unfold rollback_table
    rw [htab]
    have : (Jx.str s).truthy = true := by simp [Jx.truthy, hne]
    rw [pyOr, if_pos this]
    rfl
  unfold rollback_audit_entry
  rw [hf]
  simp only [hrb, htable, hnall]
  rfl

/-- Column set of the `tasks` table (after `ensure_column` adds the
soft-delete markers), restricted to the fields the scenarios touch. -/
def fixTasksColumns : List String :=
  ["id", "organization_id", "title", "status", "deleted_at", "deleted_by_user_id",
   "updated_at"]

/-- A live task row of tenant 1. -/
def fixActiveTaskRow : Row :=
  [("id", .int 1), ("organization_id", .int 1), ("title", .str "t1"),
   ("status", .str "Active"), ("deleted_at", .null), ("deleted_by_user_id", .null),
   ("updated_at", .str "T1")]

/-- A ledger entry whose rollback object claims the off-list table `users`. -/
def fixUsersEntry : AuditRow :=
  { id := 1, organization_id := some 1, user_id := some 9, action := "user_saved",
    entity := some "users", entity_id := some "1",
    details := .obj
      [("source", .str "api"), ("summary", .str "s"), ("before", .null), ("after", .null),
       ("rollback", .obj
         [("table", .str "users"), ("entity_id", .str "1"), ("before", .null)])],
    created_at := "T0" }

def fixUsersSt : St :=
  { tables := [("tasks", { columns := fixTasksColumns, rows := [fixActiveTaskRow] }),
               ("users", { columns := ["id", "organization_id", "name"],
                           rows := [[("id", .int 1), ("organization_id", .int 1),
                                     ("name", .str "u")]] })],
    audit := [fixUsersEntry] }

/-- Witness for C1 at a concrete store: the `users` table exists, yet the
rollback is rejected untouched. -/
theorem rollback_rejects_disallowed_table_witness :
    rollback_audit_entry fixUsersSt "T2" 1 9 1 =
      (fixUsersSt, false, "Rollback table is not allowed") :=
  rollback_rejects_disallowed_table fixUsersSt "T2" 1 9 1 fixUsersEntry
    [("table", .str "users"), ("entity_id", .str "1"), ("before", .null)] "users"
    (by decide) (by decide) (by decide) (by decide) (by decide)

/-- C10: when the rollback object's `table` field is missing or empty the
engine does not immediately fail: the target table falls back to the audit
row's own `entity` column (and the target id falls back to the row's
`entity_id`), the allow-list check is applied to the fallback value, and
with an allow-listed fallback the rollback proceeds past both early
rejections. -/
theorem rollback_table_fallback (st : St) (now : String) (org actor aid : Int)
    (row : AuditRow) (rkvs : List (String × Jx)) (e t : String)
    (hf : st.audit.find? (auditMatch aid org) = some row)
    (hrb : jget (parse_audit_details row.details) "rollback" = .obj rkvs)
    (htm : jget rkvs "table" = .null ∨ jget rkvs "table" = .str "")
    (hem : jget rkvs "entity_id" = .null ∨ jget rkvs "entity_id" = .str "")
    (he : row.entity = some e) (hene : e ≠ "")
    (het : row.entity_id = some t) (htne : t ≠ "") :
    rollback_table rkvs row.entity = pyStrip e ∧
    rollback_entity_id rkvs row.entity_id = to_int t ∧
    (AUDIT_ROLLBACK_TABLES.contains (pyStrip e) = false →
      rollback_audit_entry st now org actor aid =
        (st, false, "Rollback table is not allowed")) ∧
    (AUDIT_ROLLBACK_TABLES.contains (pyStrip e) = true →
      (rollback_audit_entry st now org actor aid).2.2 ∈
        (["Rollback target id is invalid", "Rollback snapshot is invalid",
          "Rollback target table is unsupported", "Target row no longer exists",
          "No restorable fields on this entry", "Rollback applied"] : List String)) := by
  have h1 : rollback_table rkvs row.entity = pyStrip e := by
    unfold rollback_table
    rw [he]
    have hse : (Jx.str e).truthy = true := by simp [Jx.truthy, hene]
    rcases htm with htm | htm <;>
      rw [htm] <;>
      simp [pyOr, Jx.truthy, optJx, hse, Jx.pyStr, hene]
  have h2 : rollback_entity_id rkvs row.entity_id = to_int t := by
    unfold rollback_entity_id
    rw [het]
    have hst : (Jx.str t).truthy = true := by simp [Jx.truthy, htne]
    rcases hem with hem | hem <;>
      rw [hem] <;>
      simp [pyOr, Jx.truthy, optJx, hst, Jx.pyStr, htne]
  refine ⟨h1, h2, ?_, ?_⟩
  · intro hno
    unfold rollback_audit_entry
    rw [hf]
    simp only [hrb, h1, hno]
    rfl
  · intro hyes
    unfold rollback_audit_entry
    rw [hf]
    simp only [hrb, h1, hyes, Bool.not_true]
    rw [if_neg (by simp)]
    repeat' split
    all_goals simp

/-- A ledger entry whose rollback object has no `table` key and an empty
`entity_id`, forcing the fallback to the audit row's own columns. -/
def fixFallbackEntry : AuditRow :=
  { id := 1, organization_id := some 1, user_id := some 9, action := "task_saved",
    entity := some "tasks", entity_id := some "1",
    details := .obj
      [("source", .str "api"), ("summary", .str "s"), ("before", .null), ("after", .null),
       ("rollback", .obj [("entity_id", .str ""), ("before", .null)])],
    created_at := "T0" }

def fixFallbackSt : St :=
  { tables := [("tasks", { columns := fixTasksColumns, rows := [fixActiveTaskRow] })],
    audit := [fixFallbackEntry] }

/-- Witness for C10: with the `table` key absent and `entity_id` empty, the
fallback resolves to `tasks`/id 1 and the rollback proceeds. -/
theorem rollback_table_fallback_witness :
    rollback_table [("entity_id", Jx.str ""), ("before", Jx.null)] (some "tasks") =
      pyStrip "tasks" ∧
    rollback_entity_id [("entity_id", Jx.str ""), ("before", Jx.null)] (some "1") =
      to_int "1" ∧
    (rollback_audit_entry fixFallbackSt "T2" 1 9 1).2.2 ∈
      (["Rollback target id is invalid", "Rollback snapshot is invalid",
        "Rollback target table is unsupported", "Target row no longer exists",
        "No restorable fields on this entry", "Rollback applied"] : List String) := by
  have h := rollback_table_fallback fixFallbackSt "T2" 1 9 1 fixFallbackEntry
    [("entity_id", Jx.str ""), ("before", Jx.null)] "tasks" "1"
    (by decide) (by decide) (Or.inl (by decide)) (Or.inr (by decide))
    (by decide) (by decide) (by decide) (by decide)
  exact ⟨h.1, h.2.1, h.2.2.2 (by decide)⟩

/-- C4: for a policy with `ready_statuses = ["Cancelled"]`, soft-delete on
an existing, not-yet-deleted record whose status reads "Active" always
fails `status_required:Cancelled` and changes nothing (no deleted-marker,
no ledger entry: the store is returned untouched). -/
theorem soft_delete_status_precondition (st : St) (now : String)
    (org actor iid : Int) (entity : String) (p : DeletePolicy) (row : Row)
    (hp : delete_policy_for_entity entity = some p)
    (hready : p.ready_statuses = ["Cancelled"])
    (hrow : selectRow st p.table iid org = some row)
    (hdel : (rowGet row "deleted_at").truthy = false)
    (hstat : pyStrOrEmpty (rowGet row p.status_field) = "Active") :
    entity_soft_delete st now org actor entity iid =
      (st, false, "status_required:Cancelled") := by
  unfold entity_soft_delete
  rw [hp]
  simp only [hrow, hdel, hstat, hready]
  rfl

/-- A cancelled task row of tenant 1 (ready for soft-deletion). -/
def fixCancelledTaskRow : Row :=
  [("id", .int 2), ("organization_id", .int 1), ("title", .str "t2"),
   ("status", .str "Cancelled"), ("deleted_at", .null), ("deleted_by_user_id", .null),
   ("updated_at", .str "T1")]

/-- A soft-deleted task row of tenant 1. -/
def fixDeletedTaskRow : Row :=
  [("id", .int 3), ("organization_id", .int 1), ("title", .str "t3"),
   ("status", .str "Cancelled"), ("deleted_at", .str "T2"), ("deleted_by_user_id", .int 9),
   ("updated_at", .str "T2")]

/-- A second tenant's task row (must never be touched). -/
def fixOtherTenantRow : Row :=
  [("id", .int 1), ("organization_id", .int 2), ("title", .str "o1"),
   ("status", .str "Cancelled"), ("deleted_at", .null), ("deleted_by_user_id", .null),
   ("updated_at", .str "T1")]

def fixLifecycleSt : St :=
  { tables := [("tasks",
      { columns := fixTasksColumns,
        rows := [fixActiveTaskRow, fixCancelledTaskRow, fixDeletedTaskRow,
                 fixOtherTenantRow] })],
    audit := [] }

/-- Witness for C4 on a concrete store: deleting the active task fails the
status precondition and leaves the store untouched. -/
theorem soft_delete_status_precondition_witness :
    entity_soft_delete fixLifecycleSt "T5" 1 9 "task" 1 =
      (fixLifecycleSt, false, "status_required:Cancelled") :=
  soft_delete_status_precondition fixLifecycleSt "T5" 1 9 1 "task"
    { label := "Tasks", table := "tasks", title_field := "title",
      status_field := "status", updated_field := "updated_at",
      min_role := "student", ready_statuses := ["Cancelled"] }
    fixActiveTaskRow (by decide) (by decide) (by decide) (by decide) (by decide)

/-- C7 (amended): an entry written by the ledger writer carries a
`rollback` sub-object exactly when the target table is on the allow-list
AND the serialized payload fits the 14000-character details cap; within
the cap the sub-object is precisely the claimed table, the string form of
the target id, and the caller's before-snapshot (`null` for a creation
entry), while a capped payload is stored as an unparseable truncated text
and the entry carries no rollback object at all. -/
theorem ledger_writer_rollback_payload (st : St) (now : String) (org user : Int)
    (action table : String) (eid : Int) (before after : Option Row)
    (summary source : String) :
    ((log_change_with_rollback st now org user action table eid before after
        summary source).audit.getLast?).map
      (fun a => jget (parse_audit_details a.details) "rollback") =
    some (if json_dumps_len
              (.obj (log_change_payload table eid before after summary source)) ≤ 14000 then
            (if AUDIT_ROLLBACK_TABLES.contains table then
              Jx.obj [("table", .str table), ("entity_id", .str (toString eid)),
                      ("before", match before with | none => Jx.null | some r => Jx.obj r)]
             else Jx.null)
          else Jx.null) := by
  unfold log_change_with_rollback log_action truncate_details
  by_cases hcap : json_dumps_len
      (.obj (log_change_payload table eid before after summary source)) ≤ 14000
  · rw [if_pos hcap, if_pos hcap]
    unfold log_change_payload
    by_cases hm : table ∈ AUDIT_ROLLBACK_TABLES
    · simp [hm, parse_audit_details, jget, alookup]
    · simp [hm, parse_audit_details, jget, alookup]
  · rw [if_neg hcap, if_neg hcap]
    simp [parse_audit_details, jget, alookup]

theorem alookup_map_ite_key_eq (tbl : String) (f : Table → Table) :
    ∀ (l : List (String × Table)),
      alookup tbl (l.map (fun nt => if nt.1 = tbl then (nt.1, f nt.2) else nt)) =
        (alookup tbl l).map f
  | [] => rfl
  | (k, v) :: t => by
    dsimp only [List.map_cons]
    by_cases hk : k = tbl
    · subst hk
      rw [if_pos rfl]
      simp [alookup]
    · rw [if_neg hk]
      simp only [alookup]
      rw [if_neg hk, if_neg hk]
      exact alookup_map_ite_key_eq tbl f t

theorem alookup_map_ite_key_ne (name tbl : String) (f : Table → Table) (hn : name ≠ tbl) :
    ∀ (l : List (String × Table)),
      alookup name (l.map (fun nt => if nt.1 = tbl then (nt.1, f nt.2) else nt)) =
        alookup name l
  | [] => rfl
  | (k, v) :: t => by
    dsimp only [List.map_cons]
    by_cases hk : k = tbl
    · subst hk
      have hkn : ¬(k = name) := fun he => hn (he ▸ rfl)
      rw [if_pos rfl]
      simp only [alookup]
      rw [if_neg hkn, if_neg hkn]
      exact alookup_map_ite_key_ne name k f hn t
    · rw [if_neg hk]
      simp only [alookup]
      by_cases hkn : k = name
      · rw [if_pos hkn, if_pos hkn]
      · rw [if_neg hkn, if_neg hkn]
        exact alookup_map_ite_key_ne name tbl f hn t

theorem alookup_map_ite_key (name tbl : String) (f : Table → Table)
    (l : List (String × Table)) :
    alookup name (l.map (fun nt => if nt.1 = tbl then (nt.1, f nt.2) else nt)) =
      if name = tbl then (alookup name l).map f else alookup name l := by
  by_cases hn : name = tbl
  · rw [if_pos hn, hn]
    exact alookup_map_ite_key_eq tbl f l
  · rw [if_neg hn]
    exact alookup_map_ite_key_ne name tbl f hn l

theorem getTable_mapTable (st : St) (tbl name : String) (f : Table → Table) :
    getTable (mapTable st tbl f) name =
      if name = tbl then (getTable st name).map f else getTable st name := by
  unfold getTable mapTable
  exact alookup_map_ite_key name tbl f st.tables

theorem selectRow_deleteWhere_self (st : St) (tbl : String) (eid org : Int) :
    selectRow (deleteWhere st tbl eid org) tbl eid org = none := by
  unfold selectRow deleteWhere
  rw [getTable_mapTable, if_pos rfl]
  cases h : getTable st tbl with
  | none => rfl
  | some t => simp [find?_filter_not]

theorem selectRow_updateWhere_self (st : St) (tbl : String) (eid org : Int)
    (asg : List (String × Jx))
    (hasg : ∀ r, rowMatches eid org r = true → rowMatches eid org (setKVs r asg) = true) :
    selectRow (updateWhere st tbl eid org asg) tbl eid org =
      (selectRow st tbl eid org).map (fun r => setKVs r asg) := by
  unfold selectRow updateWhere
  rw [getTable_mapTable, if_pos rfl]
  cases h : getTable st tbl with
  | none => rfl
  | some t => simp [find?_map_ite _ _ _ hasg]

theorem noRowWithId_deleteWhere (st : St) (tbl : String) (eid org : Int) :
    noRowWithId (deleteWhere st tbl eid org) tbl eid org = true := by
  unfold noRowWithId deleteWhere
  rw [getTable_mapTable, if_pos rfl]
  cases h : getTable st tbl with
  | none => rfl
  | some t =>
    simp only [Option.map]
    rw [List.all_eq_true]
    intro r hr
    have := List.of_mem_filter hr
    simpa using this

/-- C6: purging a soft-deleted record succeeds exactly once: the row is
physically removed, a second purge of the same id reports `not_found` and
changes nothing (so the record never reappears), and purging a record
whose deleted-marker is unset always fails `not_deleted` without change
(no direct active-to-purged transition). -/
theorem purge_idempotent_terminal (st : St) (now now2 : String)
    (org actor iid iid2 : Int) (entity : String) (p : DeletePolicy) (row row2 : Row)
    (hp : delete_policy_for_entity entity = some p)
    (hrow : selectRow st p.table iid org = some row)
    (hdel : (rowGet row "deleted_at").truthy = true)
    (hrow2 : selectRow st p.table iid2 org = some row2)
    (hdel2 : (rowGet row2 "deleted_at").truthy = false) :
    (purge_soft_deleted_entity st now org actor entity iid).2 = (true, "ok") ∧
    noRowWithId (purge_soft_deleted_entity st now org actor entity iid).1
      p.table iid org = true ∧
    purge_soft_deleted_entity (purge_soft_deleted_entity st now org actor entity iid).1
      now2 org actor entity iid =
      ((purge_soft_deleted_entity st now org actor entity iid).1, false, "not_found") ∧
    purge_soft_deleted_entity st now org actor entity iid2 =
      (st, false, "not_deleted") := by
  have hres : purge_soft_deleted_entity st now org actor entity iid =
      (log_change_with_rollback (deleteWhere st p.table iid org) now org actor
        "item_purged" p.table iid
        (snapshot_row (selectRow st p.table iid org)) none p.label "delete-workflow",
       true, "ok") := by
    unfold purge_soft_deleted_entity
    rw [hp]
    simp only [hrow, hdel]
    rfl
  have htab : (purge_soft_deleted_entity st now org actor entity iid).1.tables =
      (deleteWhere st p.table iid org).tables := by
    rw [hres]
    exact tables_log_change _ _ _ _ _ _ _ _ _ _ _
  refine ⟨by rw [hres], ?_, ?_, ?_⟩
  · have : noRowWithId (deleteWhere st p.table iid org) p.table iid org = true :=
      noRowWithId_deleteWhere st p.table iid org
    unfold noRowWithId at this ⊢
    unfold getTable at this ⊢
    rw [htab]
    exact this
  · have hsel : selectRow (purge_soft_deleted_entity st now org actor entity iid).1
        p.table iid org = none := by
      unfold selectRow
      unfold getTable
      rw [htab]
      have := selectRow_deleteWhere_self st p.table iid org
      unfold selectRow getTable at this
      exact this
    rw [hres] at hsel ⊢
    unfold purge_soft_deleted_entity
    rw [hp]
    simp only [hsel]
  · unfold purge_soft_deleted_entity
    rw [hp]
    simp only [hrow2, hdel2]
    rfl

/-- Witness for C6 on a concrete store: purge of the soft-deleted task 3
succeeds once, removes the row, fails `not_found` when repeated, and purge
of the never-deleted task 2 fails `not_deleted`. -/
theorem purge_idempotent_terminal_witness :
    (purge_soft_deleted_entity fixLifecycleSt "T5" 1 9 "task" 3).2 = (true, "ok") ∧
    noRowWithId (purge_soft_deleted_entity fixLifecycleSt "T5" 1 9 "task" 3).1
      "tasks" 3 1 = true ∧
    purge_soft_deleted_entity
      (purge_soft_deleted_entity fixLifecycleSt "T5" 1 9 "task" 3).1
      "T6" 1 9 "task" 3 =
      ((purge_soft_deleted_entity fixLifecycleSt "T5" 1 9 "task" 3).1,
       false, "not_found") ∧
    purge_soft_deleted_entity fixLifecycleSt "T5" 1 9 "task" 2 =
      (fixLifecycleSt, false, "not_deleted") :=
  purge_idempotent_terminal fixLifecycleSt "T5" "T6" 1 9 3 2 "task"
    { label := "Tasks", table := "tasks", title_field := "title",
      status_field := "status", updated_field := "updated_at",
      min_role := "student", ready_statuses := ["Cancelled"] }
    fixDeletedTaskRow fixCancelledTaskRow
    (by decide) (by decide) (by decide) (by decide) (by decide)

theorem selectRow_tables_eq (st st2 : St) (tbl : String) (eid org : Int)
    (h : st2.tables = st.tables) :
    selectRow st2 tbl eid org = selectRow st tbl eid org := by
  unfold selectRow getTable
  rw [h]

theorem getLast?_append_singleton (l : List α) (a : α) :
    (l ++ [a]).getLast? = some a := by
  rw [List.getLast?_concat]

/-- C8: restoring a soft-deleted record succeeds, clears both
deleted-marker fields, refreshes only the policy's updated-timestamp
field, leaves every other field (in particular the status) unchanged, and
appends exactly one ledger entry with action `item_restored`. -/
theorem restore_clears_marker_and_preserves_rest (st : St) (now : String)
    (org actor iid : Int) (entity : String) (p : DeletePolicy) (row : Row)
    (hp : delete_policy_for_entity entity = some p)
    (hrow : selectRow st p.table iid org = some row)
    (hdel : (rowGet row "deleted_at").truthy = true)
    (hu1 : p.updated_field ≠ "id") (hu2 : p.updated_field ≠ "organization_id")
    (hu3 : p.updated_field ≠ "deleted_at") (hu4 : p.updated_field ≠ "deleted_by_user_id") :
    (restore_soft_deleted_entity st now org actor entity iid).2 = (true, "ok") ∧
    (selectRow (restore_soft_deleted_entity st now org actor entity iid).1
        p.table iid org).isSome = true ∧
    rowGet ((selectRow (restore_soft_deleted_entity st now org actor entity iid).1
        p.table iid org).getD []) "deleted_at" = Jx.null ∧
    rowGet ((selectRow (restore_soft_deleted_entity st now org actor entity iid).1
        p.table iid org).getD []) "deleted_by_user_id" = Jx.null ∧
    rowGet ((selectRow (restore_soft_deleted_entity st now org actor entity iid).1
        p.table iid org).getD []) p.updated_field = Jx.str now ∧
    agreesExcept row
      ((selectRow (restore_soft_deleted_entity st now org actor entity iid).1
        p.table iid org).getD [])
      ["deleted_at", "deleted_by_user_id", p.updated_field] = true ∧
    (restore_soft_deleted_entity st now org actor entity iid).1.audit.length =
      st.audit.length + 1 ∧
    ((restore_soft_deleted_entity st now org actor entity iid).1.audit.getLast?).map
      (fun a => a.action) = some "item_restored" := by
  set asg : List (String × Jx) :=
    [("deleted_at", Jx.null), ("deleted_by_user_id", Jx.null),
     (p.updated_field, Jx.str now)] with hasg_def
  have hres : restore_soft_deleted_entity st now org actor entity iid =
      (log_change_with_rollback (updateWhere st p.table iid org asg) now org actor
        "item_restored" p.table iid
        (snapshot_row (selectRow st p.table iid org))
        (snapshot_row (selectRow (updateWhere st p.table iid org asg) p.table iid org))
        p.label "delete-workflow",
       true, "ok") := by
    unfold restore_soft_deleted_entity
    rw [hp]
    simp only [hrow, hdel]
    rfl
  have hid_not : ∀ v, ("id", v) ∉ asg := by
    intro v hv
    rw [hasg_def] at hv
    simp only [List.mem_cons, List.not_mem_nil, or_false, Prod.mk.injEq] at hv
    rcases hv with ⟨h1, _⟩ | ⟨h1, _⟩ | ⟨h1, _⟩
    · exact absurd h1 (by decide)
    · exact absurd h1 (by decide)
    · exact hu1 h1.symm
  have horg_not : ∀ v, ("organization_id", v) ∉ asg := by
    intro v hv
    rw [hasg_def] at hv
    simp only [List.mem_cons, List.not_mem_nil, or_false, Prod.mk.injEq] at hv
    rcases hv with ⟨h1, _⟩ | ⟨h1, _⟩ | ⟨h1, _⟩
    · exact absurd h1 (by decide)
    · exact absurd h1 (by decide)
    · exact hu2 h1.symm
  have hmatch : ∀ r, rowMatches iid org r = true → rowMatches iid org (setKVs r asg) = true := by
    intro r hr
    unfold rowMatches at hr ⊢
    simp only [decide_eq_true_eq] at hr ⊢
    rw [rowGet_setKVs_not_mem asg r "id" hid_not,
      rowGet_setKVs_not_mem asg r "organization_id" horg_not]
    exact hr
  have hsel : selectRow (restore_soft_deleted_entity st now org actor entity iid).1
      p.table iid org = some (setKVs row asg) := by
    rw [hres]
    rw [selectRow_tables_eq (updateWhere st p.table iid org asg) _ p.table iid org
      (tables_log_change _ _ _ _ _ _ _ _ _ _ _)]
    rw [selectRow_updateWhere_self st p.table iid org asg hmatch, hrow]
    rfl
  have hrow2 : ((selectRow (restore_soft_deleted_entity st now org actor entity iid).1
      p.table iid org).getD []) = setKVs row asg := by
    rw [hsel]
    rfl
  have hunfold : setKVs row asg =
      setKV (setKV (setKV row "deleted_at" Jx.null) "deleted_by_user_id" Jx.null)
        p.updated_field (Jx.str now) := rfl
  refine ⟨by rw [hres], by rw [hsel]; rfl, ?_, ?_, ?_, ?_, ?_, ?_⟩
  · rw [hrow2, hunfold, rowGet_setKV_other _ _ _ _ (fun he => hu3 he.symm),
      rowGet_setKV_other _ _ _ _ (by decide), rowGet_setKV_self]
  · rw [hrow2, hunfold, rowGet_setKV_other _ _ _ _ (fun he => hu4 he.symm),
      rowGet_setKV_self]
  · rw [hrow2, hunfold, rowGet_setKV_self]
  · rw [hrow2]
    unfold agreesExcept
    rw [List.all_eq_true]
    intro k hk
    by_cases hex : (["deleted_at", "deleted_by_user_id", p.updated_field].contains k) = true
    · show (_ || _) = true
      rw [hex]
      rfl
    · have hkm : k ∉ ["deleted_at", "deleted_by_user_id", p.updated_field] := by
        simpa using hex
      have hnot : ∀ v, (k, v) ∉ asg := by
        intro v hv
        rw [hasg_def] at hv
        simp only [List.mem_cons, List.not_mem_nil, or_false, Prod.mk.injEq] at hv
        rcases hv with ⟨h1, _⟩ | ⟨h1, _⟩ | ⟨h1, _⟩ <;>
          exact hkm (by simp [h1])
      have heq : rowGet (setKVs row asg) k = rowGet row k :=
        rowGet_setKVs_not_mem asg row k hnot
      simp [heq]
  · rw [hres]
    show ((updateWhere st p.table iid org asg).audit ++ [_]).length = st.audit.length + 1
    rw [List.length_append]
    rfl
  · rw [hres]
    show (((updateWhere st p.table iid org asg).audit ++ [_]).getLast?).map _ =
      some "item_restored"
    rw [getLast?_append_singleton]
    rfl

/-- Witness for C8: restoring the soft-deleted task 3 clears its markers,
refreshes `updated_at`, preserves its status `Cancelled`, and logs
`item_restored`. -/
theorem restore_clears_marker_and_preserves_rest_witness :
    (restore_soft_deleted_entity fixLifecycleSt "T7" 1 9 "task" 3).2 = (true, "ok") ∧
    (selectRow (restore_soft_deleted_entity fixLifecycleSt "T7" 1 9 "task" 3).1
        "tasks" 3 1).isSome = true ∧
    rowGet ((selectRow (restore_soft_deleted_entity fixLifecycleSt "T7" 1 9 "task" 3).1
        "tasks" 3 1).getD []) "deleted_at" = Jx.null ∧
    rowGet ((selectRow (restore_soft_deleted_entity fixLifecycleSt "T7" 1 9 "task" 3).1
        "tasks" 3 1).getD []) "deleted_by_user_id" = Jx.null ∧
    rowGet ((selectRow (restore_soft_deleted_entity fixLifecycleSt "T7" 1 9 "task" 3).1
        "tasks" 3 1).getD []) "updated_at" = Jx.str "T7" ∧
    agreesExcept fixDeletedTaskRow
      ((selectRow (restore_soft_deleted_entity fixLifecycleSt "T7" 1 9 "task" 3).1
        "tasks" 3 1).getD [])
      ["deleted_at", "deleted_by_user_id", "updated_at"] = true ∧
    (restore_soft_deleted_entity fixLifecycleSt "T7" 1 9 "task" 3).1.audit.length =
      fixLifecycleSt.audit.length + 1 ∧
    ((restore_soft_deleted_entity fixLifecycleSt "T7" 1 9 "task" 3).1.audit.getLast?).map
      (fun a => a.action) = some "item_restored" :=
  restore_clears_marker_and_preserves_rest fixLifecycleSt "T7" 1 9 3 "task"
    { label := "Tasks", table := "tasks", title_field := "title",
      status_field := "status", updated_field := "updated_at",
      min_role := "student", ready_statuses := ["Cancelled"] }
    fixDeletedTaskRow
    (by decide) (by decide) (by decide) (by decide) (by decide) (by decide) (by decide)

theorem noActiveWithId_tables_eq (st st2 : St) (tbl : String) (eid org : Int)
    (h : st2.tables = st.tables) :
    noActiveWithId st2 tbl eid org = noActiveWithId st tbl eid org := by
  unfold noActiveWithId getTable
  rw [h]

theorem noActiveWithId_updateWhere (st : St) (tbl : String) (eid org : Int)
    (asg : List (String × Jx))
    (h : ∀ r, rowMatches eid org r = true →
      (rowGet (setKVs r asg) "deleted_at").truthy = true) :
    noActiveWithId (updateWhere st tbl eid org asg) tbl eid org = true := by
  unfold noActiveWithId updateWhere
  rw [getTable_mapTable, if_pos rfl]
  cases hg : getTable st tbl with
  | none => rfl
  | some t =>
    simp only [Option.map]
    rw [List.all_eq_true]
    intro r hr
    rcases List.mem_map.mp hr with ⟨r0, _, hre⟩
    by_cases hm : rowMatches eid org r0 = true
    · rw [if_pos hm] at hre
      subst hre
      simp [h r0 hm]
    · rw [if_neg hm] at hre
      subst hre
      simp [hm]

theorem noActiveWithId_deleteWhere (st : St) (tbl : String) (eid org : Int) :
    noActiveWithId (deleteWhere st tbl eid org) tbl eid org = true := by
  unfold noActiveWithId deleteWhere
  rw [getTable_mapTable, if_pos rfl]
  cases hg : getTable st tbl with
  | none => rfl
  | some t =>
    simp only [Option.map]
    rw [List.all_eq_true]
    intro r hr
    have := List.of_mem_filter hr
    simp only [Bool.not_eq_eq_eq_not, Bool.not_true] at this
    simp [this]

/-- C2 (amended): rolling back a creation entry (`rollback.before = null`)
that succeeds leaves no *active* record with the target id in the target
table for the tenant: every remaining row with that id carries a set
deleted-marker (on tables without a `deleted_at` column the row is removed
outright, so none remains at all). -/
theorem creation_rollback_no_active_row (st : St) (now : String)
    (org actor aid : Int) (row : AuditRow) (rkvs : List (String × Jx)) (eid : Int)
    (hf : st.audit.find? (auditMatch aid org) = some row)
    (hrb : jget (parse_audit_details row.details) "rollback" = .obj rkvs)
    (htab : AUDIT_ROLLBACK_TABLES.contains (rollback_table rkvs row.entity) = true)
    (heid : rollback_entity_id rkvs row.entity_id = some eid)
    (hbef : jget rkvs "before" = .null)
    (hnow : now ≠ "")
    (hok : (rollback_audit_entry st now org actor aid).2.1 = true) :
    noActiveWithId (rollback_audit_entry st now org actor aid).1
      (rollback_table rkvs row.entity) eid org = true := by
  unfold rollback_audit_entry at hok ⊢
  rw [hf] at hok ⊢
  simp only [hrb, htab, heid, hbef, Bool.not_true] at hok ⊢
  rw [if_neg (by simp)] at hok ⊢
  by_cases hc : (!(table_columns st (rollback_table rkvs row.entity)).contains "id" ||
      !(table_columns st (rollback_table rkvs row.entity)).contains "organization_id") = true
  · rw [if_pos hc] at hok
    simp at hok
  · rw [if_neg hc] at hok ⊢
    cases hs : selectRow st (rollback_table rkvs row.entity) eid org with
    | none =>
      rw [hs] at hok
      simp at hok
    | some r0 =>
      rw [hs] at hok
      dsimp only at hok ⊢
      rw [noActiveWithId_tables_eq _ _ _ _ _ (tables_log_action _ _ _ _ _ _ _ _)]
      by_cases hda : (table_columns st (rollback_table rkvs row.entity)).contains "deleted_at" = true
      · rw [if_pos hda]
        apply noActiveWithId_updateWhere
        intro r _
        have hstep : setKVs r
            ([("deleted_at", Jx.str now)] ++
             (if (table_columns st (rollback_table rkvs row.entity)).contains "deleted_by_user_id" then
                [("deleted_by_user_id", Jx.int actor)] else []) ++
             (if (table_columns st (rollback_table rkvs row.entity)).contains "updated_at" then
                [("updated_at", Jx.str now)] else [])) =
            setKVs (setKV r "deleted_at" (Jx.str now))
              ((if (table_columns st (rollback_table rkvs row.entity)).contains "deleted_by_user_id" then
                  [("deleted_by_user_id", Jx.int actor)] else []) ++
               (if (table_columns st (rollback_table rkvs row.entity)).contains "updated_at" then
                  [("updated_at", Jx.str now)] else [])) := rfl
        rw [hstep, rowGet_setKVs_not_mem _ _ _ ?hnm, rowGet_setKV_self]
        · simp [Jx.truthy, hnow]
        case hnm =>
          intro v hv
          rcases List.mem_append.mp hv with hv | hv
          · by_cases h1 : (table_columns st (rollback_table rkvs row.entity)).contains "deleted_by_user_id" = true
            · rw [if_pos h1] at hv
              simp at hv
            · rw [if_neg h1] at hv
              simp at hv
          · by_cases h2 : (table_columns st (rollback_table rkvs row.entity)).contains "updated_at" = true
            · rw [if_pos h2] at hv
              simp at hv
            · rw [if_neg h2] at hv
              simp at hv
      · rw [if_neg hda]
        exact noActiveWithId_deleteWhere st (rollback_table rkvs row.entity) eid org

/-- The ledger entry recording the creation of task 1 (rollback.before is
null), as `log_change_with_rollback` would have written it. -/
def fixCreationEntry : AuditRow :=
  { id := 1, organization_id := some 1, user_id := some 9, action := "task_saved",
    entity := some "tasks", entity_id := some "1",
    details := .obj
      [("source", .str "api"), ("summary", .str "Tasks: t1"), ("before", .null),
       ("after", .obj fixActiveTaskRow),
       ("rollback", .obj
         [("table", .str "tasks"), ("entity_id", .str "1"), ("before", .null)])],
    created_at := "T0" }

def fixCreationSt : St :=
  { tables := [("tasks", { columns := fixTasksColumns, rows := [fixActiveTaskRow] })],
    audit := [fixCreationEntry] }

/-- Counterexample to C2 as stated: rolling back the creation entry of
task 1 succeeds, yet a soft-deleted record with that id is still present
in the `tasks` table (the engine soft-deletes rather than removes when the
table has a deleted-marker column). -/
theorem creation_rollback_row_remains_soft_deleted :
    (rollback_audit_entry fixCreationSt "T2" 1 9 1).2 = (true, "Rollback applied") ∧
    ((getTable (rollback_audit_entry fixCreationSt "T2" 1 9 1).1 "tasks").getD
        (Table.mk [] [])).rows.any
      (fun r => rowMatches 1 1 r && (rowGet r "deleted_at").truthy) = true := by
  decide

/-- Witness for the amended C2 at the same concrete store: after the
successful creation-rollback no active row with id 1 remains. -/
theorem creation_rollback_no_active_row_witness :
    noActiveWithId (rollback_audit_entry fixCreationSt "T2" 1 9 1).1
      (rollback_table
        [("table", Jx.str "tasks"), ("entity_id", Jx.str "1"), ("before", Jx.null)]
        (some "tasks")) 1 1 = true :=
  creation_rollback_no_active_row fixCreationSt "T2" 1 9 1 fixCreationEntry
    [("table", Jx.str "tasks"), ("entity_id", Jx.str "1"), ("before", Jx.null)] 1
    (by decide) (by decide) (by decide) (by decide) (by decide) (by decide) (by decide)

theorem mem_setKVReplace_self_val (k : String) (v v2 : Jx) :
    ∀ (r : Row), (k, v2) ∈ setKVReplace r k v → v2 = v
  | [] => by simp [setKVReplace]
  | (k1, w) :: t => by
    rw [setKVReplace]
    by_cases hk : k1 = k
    · rw [if_pos hk]
      intro hm
      rcases List.mem_cons.mp hm with hm | hm
      · exact congrArg Prod.snd hm
      · exact mem_setKVReplace_self_val k v v2 t hm
    · rw [if_neg hk]
      intro hm
      rcases List.mem_cons.mp hm with hm | hm
      · exact absurd (congrArg Prod.fst hm).symm hk
      · exact mem_setKVReplace_self_val k v v2 t hm

theorem mem_setKV_self_val (k : String) (v v2 : Jx) :
    ∀ (r : Row), (k, v2) ∈ setKV r k v → v2 = v
  | [] => by simp [setKV]
  | (k1, w) :: t => by
    rw [setKV]
    by_cases hk : k1 = k
    · rw [if_pos hk]
      intro hm
      rcases List.mem_cons.mp hm with hm | hm
      · exact congrArg Prod.snd hm
      · exact mem_setKVReplace_self_val k v v2 t hm
    · rw [if_neg hk]
      intro hm
      rcases List.mem_cons.mp hm with hm | hm
      · exact absurd (congrArg Prod.fst hm).symm hk
      · exact mem_setKV_self_val k v v2 t hm

theorem alookup_not_mem {k : String} {l : List (String × Jx)}
    (h : alookup k l = none) : ∀ v, (k, v) ∉ l := by
  induction l with
  | nil => intro v hv; simp at hv
  | cons kv t ih =>
    intro v hv
    obtain ⟨k1, w⟩ := kv
    rw [alookup] at h
    by_cases hk : k1 = k
    · rw [if_pos hk] at h
      cases h
    · rw [if_neg hk] at h
      rcases List.mem_cons.mp hv with hv | hv
      · exact hk (congrArg Prod.fst hv).symm
      · exact ih h v hv

theorem alookup_filter_key (q : String → Bool) (k : String) :
    ∀ (l : List (String × Jx)),
      alookup k (l.filter (fun kv => q kv.1)) = if q k then alookup k l else none
  | [] => by by_cases hq : q k = true <;> simp [alookup, hq]
  | (k1, w) :: t => by
    by_cases hk : k1 = k
    · subst hk
      by_cases hq : q k1 = true
      · rw [List.filter_cons_of_pos (by simpa using hq), alookup, if_pos rfl,
          if_pos hq, alookup, if_pos rfl]
      · have hq2 : q k1 = false := by
          cases hqq : q k1
          · rfl
          · exact absurd hqq hq
        rw [List.filter_cons_of_neg (by simp [hq2]), alookup_filter_key q k1 t,
          if_neg (by simp [hq2])]
        rw [if_neg (by simp [hq2])]
    · by_cases hq : q k1 = true
      · rw [List.filter_cons_of_pos (by simpa using hq), alookup, if_neg hk,
          alookup_filter_key q k t]
        by_cases hqk : q k = true
        · rw [if_pos hqk, if_pos hqk, alookup, if_neg hk]
        · rw [if_neg hqk, if_neg hqk]
      · have hq2 : q k1 = false := by
          cases hqq : q k1
          · rfl
          · exact absurd hqq hq
        rw [List.filter_cons_of_neg (by simp [hq2]), alookup_filter_key q k t]
        by_cases hqk : q k = true
        · rw [if_pos hqk, if_pos hqk, alookup, if_neg hk]
        · rw [if_neg hqk, if_neg hqk]

theorem mem_alookup_nodup (k : String) (v v2 : Jx) :
    ∀ (l : List (String × Jx)), (l.map Prod.fst).Nodup →
      alookup k l = some v → (k, v2) ∈ l → v2 = v
  | [] => by intro _ _ h; simp at h
  | (k1, w) :: t => by
    intro hnd hl hm
    rw [alookup] at hl
    rw [List.map_cons, List.nodup_cons] at hnd
    by_cases hk : k1 = k
    · rw [if_pos hk] at hl
      cases hl
      rcases List.mem_cons.mp hm with hm | hm
      · exact congrArg Prod.snd hm
      · have hkm : k1 ∈ t.map Prod.fst := by
          rw [hk]
          exact List.mem_map_of_mem Prod.fst hm
        exact absurd hkm hnd.1
    · rw [if_neg hk] at hl
      rcases List.mem_cons.mp hm with hm | hm
      · exact absurd (congrArg Prod.fst hm).symm hk
      · exact mem_alookup_nodup k v v2 t hnd.2 hl hm

theorem rowGet_setKVs_assigned :
    ∀ (asg : List (String × Jx)) (r : Row) (k : String) (v : Jx),
      (∀ v2, (k, v2) ∈ asg → v2 = v) → alookup k asg = some v →
      rowGet (setKVs r asg) k = v
  | [], _, _, _, _, hl => by simp [alookup] at hl
  | (k1, w) :: t, r, k, v, hall, hl => by
    rw [setKVs, List.foldl_cons]
    by_cases hk : k1 = k
    · have hw : w = v := hall w (by rw [← hk]; exact List.mem_cons_self _ _)
      cases hlt : alookup k t with
      | none =>
        have h2 := rowGet_setKVs_not_mem t (setKV r k1 w) k (alookup_not_mem hlt)
        rw [setKVs] at h2
        rw [h2, hk, rowGet_setKV_self]
        exact hw
      | some v3 =>
        have hv3 : v3 = v := hall v3 (List.mem_cons_of_mem _ (alookup_mem hlt))
        have h2 := rowGet_setKVs_assigned t (setKV r k1 w) k v
          (fun v2 hv2 => hall v2 (List.mem_cons_of_mem _ hv2)) (by rw [hlt, hv3])
        rw [setKVs] at h2
        exact h2
    · rw [alookup, if_neg hk] at hl
      have h2 := rowGet_setKVs_assigned t (setKV r k1 w) k v
        (fun v2 hv2 => hall v2 (List.mem_cons_of_mem _ hv2)) hl
      rw [setKVs] at h2
      exact h2

theorem setKV_ne_nil (r : Row) (k : String) (v : Jx) : setKV r k v ≠ [] := by
  cases r with
  | nil => simp [setKV]
  | cons kv t =>
    obtain ⟨k1, w⟩ := kv
    rw [setKV]
    by_cases hk : k1 = k
    · rw [if_pos hk]
      simp
    · rw [if_neg hk]
      simp

theorem mem_setKV_other (k k2 : String) (v v2 : Jx) (h : k2 ≠ k) (r : Row)
    (hm : (k2, v2) ∈ setKV r k v) : (k2, v2) ∈ r := by
  rcases mem_setKV k k2 v v2 r hm with ⟨h1, _⟩ | h1
  · exact absurd h1 h
  · exact h1

theorem rrv_not_id (columns : List String) (bkvs : List (String × Jx))
    (org : Int) (now : String) :
    ∀ v, ("id", v) ∉ rollback_restore_values columns bkvs org now := by
  intro v hv
  unfold rollback_restore_values at hv
  have h1 : ∀ v2, ("id", v2) ∉ setKV
      (bkvs.filter (fun kv => columns.contains kv.1 && kv.1 ≠ "id"))
      "organization_id" (Jx.int org) := by
    intro v2 hv2
    rcases mem_setKV _ _ _ _ _ hv2 with ⟨h, _⟩ | h
    · exact absurd h (by decide)
    · have := List.of_mem_filter h
      simp at this
  by_cases hu : columns.contains "updated_at" = true
  · rw [if_pos hu] at hv
    rcases mem_setKV _ _ _ _ _ hv with ⟨h, _⟩ | h
    · exact absurd h (by decide)
    · exact h1 v h
  · rw [if_neg hu] at hv
    exact h1 v hv

theorem rrv_org_val (columns : List String) (bkvs : List (String × Jx))
    (org : Int) (now : String) :
    ∀ v, ("organization_id", v) ∈ rollback_restore_values columns bkvs org now →
      v = Jx.int org := by
  intro v hv
  unfold rollback_restore_values at hv
  have h1 : ∀ v2, ("organization_id", v2) ∈ setKV
      (bkvs.filter (fun kv => columns.contains kv.1 && kv.1 ≠ "id"))
      "organization_id" (Jx.int org) → v2 = Jx.int org :=
    fun v2 hv2 => mem_setKV_self_val _ _ _ _ hv2
  by_cases hu : columns.contains "updated_at" = true
  · rw [if_pos hu] at hv
    exact h1 v (mem_setKV_other _ _ _ _ (by decide) _ hv)
  · rw [if_neg hu] at hv
    exact h1 v hv

theorem rrv_org_lookup (columns : List String) (bkvs : List (String × Jx))
    (org : Int) (now : String) :
    alookup "organization_id" (rollback_restore_values columns bkvs org now) =
      some (Jx.int org) := by
  unfold rollback_restore_values
  by_cases hu : columns.contains "updated_at" = true
  · rw [if_pos hu, alookup_setKV_other _ _ _ (by decide), alookup_setKV_self]
  · rw [if_neg hu, alookup_setKV_self]

theorem rrv_ne_nil (columns : List String) (bkvs : List (String × Jx))
    (org : Int) (now : String) :
    rollback_restore_values columns bkvs org now ≠ [] := by
  unfold rollback_restore_values
  by_cases hu : columns.contains "updated_at" = true
  · rw [if_pos hu]
    exact setKV_ne_nil _ _ _
  · rw [if_neg hu]
    exact setKV_ne_nil _ _ _

theorem rrv_lookup_other (columns : List String) (bkvs : List (String × Jx))
    (org : Int) (now : String) (F : String)
    (h1 : F ≠ "updated_at") (h2 : F ≠ "organization_id") (h3 : F ≠ "id")
    (hc : columns.contains F = true) :
    alookup F (rollback_restore_values columns bkvs org now) = alookup F bkvs := by
  unfold rollback_restore_values
  have hfilter : alookup F
      (bkvs.filter (fun kv => columns.contains kv.1 && kv.1 ≠ "id")) =
      alookup F bkvs := by
    rw [alookup_filter_key (fun s => columns.contains s && decide (s ≠ "id")) F bkvs,
      if_pos (by rw [hc]; simp [h3])]
  by_cases hu : columns.contains "updated_at" = true
  · rw [if_pos hu, alookup_setKV_other _ _ _ h1, alookup_setKV_other _ _ _ h2]
    exact hfilter
  · rw [if_neg hu, alookup_setKV_other _ _ _ h2]
    exact hfilter

theorem rrv_mem_other (columns : List String) (bkvs : List (String × Jx))
    (org : Int) (now : String) (F : String) (v2 : Jx)
    (h1 : F ≠ "updated_at") (h2 : F ≠ "organization_id") :
    (F, v2) ∈ rollback_restore_values columns bkvs org now → (F, v2) ∈ bkvs := by
  intro hv
  unfold rollback_restore_values at hv
  have h0 : (F, v2) ∈ setKV
      (bkvs.filter (fun kv => columns.contains kv.1 && kv.1 ≠ "id"))
      "organization_id" (Jx.int org) → (F, v2) ∈ bkvs := by
    intro hm
    exact List.mem_of_mem_filter (mem_setKV_other _ _ _ _ h2 _ hm)
  by_cases hu : columns.contains "updated_at" = true
  · rw [if_pos hu] at hv
    exact h0 (mem_setKV_other _ _ _ _ h1 _ hv)
  · rw [if_neg hu] at hv
    exact h0 hv

/-- C3 (amended): a successful update-rollback on an existing row restores
every field present both in the stored before-snapshot and in the target
table's current column set exactly — except the `updated_at` timestamp
column, which the engine refreshes to the rollback time instead of the
snapshot value.  (`organization_id` is forced to the caller's tenant and
`id` is never written; for entries produced by the ledger writer the
snapshot holds exactly those values, as hypothesised here, so both are
still restored byte-for-byte.) -/
theorem update_rollback_restores_fields (st : St) (now : String)
    (org actor aid : Int) (row : AuditRow) (rkvs bkvs : List (String × Jx))
    (tbl : String) (eid : Int) (er : Row) (F : String) (v : Jx)
    (hf : st.audit.find? (auditMatch aid org) = some row)
    (hrb : jget (parse_audit_details row.details) "rollback" = .obj rkvs)
    (htbl : rollback_table rkvs row.entity = tbl)
    (hall : AUDIT_ROLLBACK_TABLES.contains tbl = true)
    (heid : rollback_entity_id rkvs row.entity_id = some eid)
    (hbef : jget rkvs "before" = .obj bkvs)
    (hnd : (bkvs.map Prod.fst).Nodup)
    (hid : (table_columns st tbl).contains "id" = true)
    (horg : (table_columns st tbl).contains "organization_id" = true)
    (hex : selectRow st tbl eid org = some er)
    (hsid : alookup "id" bkvs = some (.int eid))
    (hsorg : alookup "organization_id" bkvs = some (.int org))
    (hF : alookup F bkvs = some v)
    (hFcol : (table_columns st tbl).contains F = true)
    (hFup : F ≠ "updated_at") :
    (rollback_audit_entry st now org actor aid).2 = (true, "Rollback applied") ∧
    rowGet ((selectRow (rollback_audit_entry st now org actor aid).1
      tbl eid org).getD []) F = v := by
  have her : rowMatches eid org er = true := by
    unfold selectRow at hex
    cases hg : getTable st tbl with
    | none => rw [hg] at hex; simp at hex
    | some t =>
      rw [hg] at hex
      simp only [Option.bind] at hex
      exact List.find?_some hex
  have hmatch : ∀ r, rowMatches eid org r = true →
      rowMatches eid org
        (setKVs r (rollback_restore_values (table_columns st tbl) bkvs org now)) = true := by
    intro r hr
    unfold rowMatches at hr ⊢
    simp only [decide_eq_true_eq] at hr ⊢
    constructor
    · rw [rowGet_setKVs_not_mem _ r "id" (fun v2 hv2 => rrv_not_id _ _ _ _ v2 hv2)]
      exact hr.1
    · exact rowGet_setKVs_forced _ r "organization_id" (Jx.int org)
        (fun v2 hv2 => rrv_org_val _ _ _ _ v2 hv2) hr.2
  have hres : rollback_audit_entry st now org actor aid =
      (log_action
        (updateWhere st tbl eid org
          (rollback_restore_values (table_columns st tbl) bkvs org now))
        now (some org) (some actor) "audit_rollback_applied" (some tbl)
        (some (toString eid))
        (.str ("Restored snapshot from audit #" ++ toString aid)),
       true, "Rollback applied") := by
    unfold rollback_audit_entry
    rw [hf]
    simp only [hrb, htbl, hall, heid, hbef, Bool.not_true]
    rw [if_neg (by simp)]
    rw [if_neg (by simp only [hid, horg]; simp)]
    simp only [hex]
    have hnil2 : (rollback_restore_values (table_columns st tbl) bkvs org now).isEmpty =
        false := by
      cases hrv : rollback_restore_values (table_columns st tbl) bkvs org now with
      | nil => exact absurd hrv (rrv_ne_nil _ _ _ _)
      | cons a b => rfl
    rw [if_neg (by simp [hnil2])]
  have hsel : selectRow (rollback_audit_entry st now org actor aid).1 tbl eid org =
      some (setKVs er (rollback_restore_values (table_columns st tbl) bkvs org now)) := by
    rw [hres]
    rw [selectRow_tables_eq
      (updateWhere st tbl eid org
        (rollback_restore_values (table_columns st tbl) bkvs org now)) _
      tbl eid org (tables_log_action _ _ _ _ _ _ _ _)]
    rw [selectRow_updateWhere_self st tbl eid org _ hmatch, hex]
    rfl
  refine ⟨by rw [hres], ?_⟩
  rw [hsel]
  show rowGet (setKVs er (rollback_restore_values (table_columns st tbl) bkvs org now)) F = v
  by_cases hFid : F = "id"
  · subst hFid
    rw [hF] at hsid
    have hv : v = Jx.int eid := Option.some.inj hsid
    rw [rowGet_setKVs_not_mem _ _ _ (fun v2 hv2 => rrv_not_id _ _ _ _ v2 hv2), hv]
    unfold rowMatches at her
    simp only [decide_eq_true_eq] at her
    exact her.1
  · by_cases hForg : F = "organization_id"
    · subst hForg
      rw [hF] at hsorg
      have hv : v = Jx.int org := Option.some.inj hsorg
      rw [hv]
      apply rowGet_setKVs_forced _ _ _ _ (fun v2 hv2 => rrv_org_val _ _ _ _ v2 hv2)
      unfold rowMatches at her
      simp only [decide_eq_true_eq] at her
      exact her.2
    · apply rowGet_setKVs_assigned _ _ _ _ ?hvals ?hlk
      case hvals =>
        intro v2 hv2
        exact mem_alookup_nodup F v v2 bkvs hnd hF
          (rrv_mem_other _ _ _ _ _ _ hFup hForg hv2)
      case hlk =>
        rw [rrv_lookup_other _ _ _ _ F hFup hForg hFid hFcol]
        exact hF

/-- The pre-update snapshot of task 1 stored in the update ledger entry. -/
def fixUpdateBefore : Row :=
  [("id", .int 1), ("organization_id", .int 1), ("title", .str "old"),
   ("status", .str "Active"), ("deleted_at", .null), ("deleted_by_user_id", .null),
   ("updated_at", .str "T0")]

/-- The ledger entry recording an update of task 1 (before = full snapshot). -/
def fixUpdateEntry : AuditRow :=
  { id := 1, organization_id := some 1, user_id := some 9, action := "task_saved",
    entity := some "tasks", entity_id := some "1",
    details := .obj
      [("source", .str "api"), ("summary", .str "Tasks: t1"),
       ("before", .obj fixUpdateBefore), ("after", .obj fixActiveTaskRow),
       ("rollback", .obj
         [("table", .str "tasks"), ("entity_id", .str "1"),
          ("before", .obj fixUpdateBefore)])],
    created_at := "T1" }

def fixUpdateSt : St :=
  { tables := [("tasks", { columns := fixTasksColumns, rows := [fixActiveTaskRow] })],
    audit := [fixUpdateEntry] }

/-- Counterexample to C3 as stated: `updated_at` is present both in the
snapshot (value "T0") and in the current column set, yet the successful
rollback leaves it at the rollback time "T2", not the snapshot value. -/
theorem update_rollback_overwrites_updated_at :
    (rollback_audit_entry fixUpdateSt "T2" 1 9 1).2 = (true, "Rollback applied") ∧
    alookup "updated_at" fixUpdateBefore = some (Jx.str "T0") ∧
    fixTasksColumns.contains "updated_at" = true ∧
    rowGet ((selectRow (rollback_audit_entry fixUpdateSt "T2" 1 9 1).1
      "tasks" 1 1).getD []) "updated_at" = Jx.str "T2" ∧
    rowGet ((selectRow (rollback_audit_entry fixUpdateSt "T2" 1 9 1).1
      "tasks" 1 1).getD []) "updated_at" ≠ Jx.str "T0" := by
  decide

/-- Witness for the amended C3: the mutated `title` field is restored
byte-for-byte to its pre-update value "old". -/
theorem update_rollback_restores_fields_witness :
    (rollback_audit_entry fixUpdateSt "T2" 1 9 1).2 = (true, "Rollback applied") ∧
    rowGet ((selectRow (rollback_audit_entry fixUpdateSt "T2" 1 9 1).1
      "tasks" 1 1).getD []) "title" = Jx.str "old" :=
  update_rollback_restores_fields fixUpdateSt "T2" 1 9 1 fixUpdateEntry
    [("table", Jx.str "tasks"), ("entity_id", Jx.str "1"),
     ("before", Jx.obj fixUpdateBefore)]
    fixUpdateBefore "tasks" 1 fixActiveTaskRow "title" (Jx.str "old")
    (by decide) (by decide) (by decide) (by decide) (by decide) (by decide)
    (by decide) (by decide) (by decide) (by decide) (by decide) (by decide)
    (by decide) (by decide) (by decide)

theorem rrv_isEmpty_false (columns : List String) (bkvs : List (String × Jx))
    (org : Int) (now : String) :
    (rollback_restore_values columns bkvs org now).isEmpty = false := by
  cases hrv : rollback_restore_values columns bkvs org now with
  | nil => exact absurd hrv (rrv_ne_nil _ _ _ _)
  | cons a t => rfl

/-- C5 (code behaviour): the `no_restorable_fields` rejection is
unreachable — the engine forces `organization_id` into the restore values
before testing them for emptiness, so the test never fires on any store,
clock, tenant, actor or entry. -/
theorem rollback_never_no_restorable_fields (st : St) (now : String)
    (org actor aid : Int) :
    (rollback_audit_entry st now org actor aid).2.2 ≠
      "No restorable fields on this entry" := by
  unfold rollback_audit_entry
  repeat' split
  all_goals simp_all [rrv_isEmpty_false]
  all_goals repeat' split
  all_goals simp_all [rrv_isEmpty_false]

/-- An update entry whose snapshot has no column in common with `tasks`. -/
def fixGhostEntry : AuditRow :=
  { id := 1, organization_id := some 1, user_id := some 9, action := "task_saved",
    entity := some "tasks", entity_id := some "1",
    details := .obj
      [("source", .str "api"), ("summary", .str "s"),
       ("before", .obj [("ghost_col", .str "x")]), ("after", .null),
       ("rollback", .obj
         [("table", .str "tasks"), ("entity_id", .str "1"),
          ("before", .obj [("ghost_col", .str "x")])])],
    created_at := "T1" }

def fixGhostSt : St :=
  { tables := [("tasks", { columns := fixTasksColumns, rows := [fixActiveTaskRow] })],
    audit := [fixGhostEntry] }

/-- C5 at the failing input: with a snapshot sharing no column with the
table, the engine reports success and still rewrites the record
(`updated_at` is refreshed), instead of the specified
`no_restorable_fields` rejection with no change. -/
theorem update_rollback_ghost_snapshot_applies :
    (rollback_audit_entry fixGhostSt "T2" 1 9 1).2 = (true, "Rollback applied") ∧
    rowGet ((selectRow (rollback_audit_entry fixGhostSt "T2" 1 9 1).1
      "tasks" 1 1).getD []) "updated_at" = Jx.str "T2" ∧
    (rollback_audit_entry fixGhostSt "T2" 1 9 1).1 ≠ fixGhostSt := by
  decide

theorem policy_updated_field (entity : String) (p : DeletePolicy)
    (hp : delete_policy_for_entity entity = some p) :
    p.updated_field = "updated_at" := by
  unfold delete_policy_for_entity at hp
  have hm := alookup_mem hp
  simp only [DELETE_POLICY, List.mem_cons, List.not_mem_nil, or_false,
    Prod.mk.injEq] at hm
  rcases hm with ⟨_, h⟩ | ⟨_, h⟩ | ⟨_, h⟩ | ⟨_, h⟩ | ⟨_, h⟩ | ⟨_, h⟩ <;> rw [h]

theorem otherTenant_soft_delete (st : St) (now : String) (org actor iid : Int)
    (entity : String) :
    otherTenantRows (entity_soft_delete st now org actor entity iid).1 org =
      otherTenantRows st org := by
  unfold entity_soft_delete
  cases hp : delete_policy_for_entity entity with
  | none => rfl
  | some p =>
    dsimp only
    cases hs : selectRow st p.table iid org with
    | none => rfl
    | some row =>
      dsimp only
      by_cases hdel : (rowGet row "deleted_at").truthy = true
      · rw [if_pos hdel]
      · rw [if_neg hdel]
        by_cases hst : (!p.ready_statuses.isEmpty &&
            !p.ready_statuses.contains (pyStrOrEmpty (rowGet row p.status_field))) = true
        · rw [if_pos hst]
        · rw [if_neg hst]
          dsimp only
          rw [otherTenantRows_tables_eq _ _ _ (tables_log_change _ _ _ _ _ _ _ _ _ _ _)]
          apply otherTenantRows_updateWhere
          intro v hv
          simp only [List.mem_cons, List.not_mem_nil, or_false, Prod.mk.injEq] at hv
          rcases hv with ⟨h1, _⟩ | ⟨h1, _⟩ | ⟨h1, _⟩
          · exact absurd h1 (by decide)
          · exact absurd h1 (by decide)
          · rw [policy_updated_field entity p hp] at h1
            exact absurd h1 (by decide)

theorem otherTenant_restore (st : St) (now : String) (org actor iid : Int)
    (entity : String) :
    otherTenantRows (restore_soft_deleted_entity st now org actor entity iid).1 org =
      otherTenantRows st org := by
  unfold restore_soft_deleted_entity
  cases hp : delete_policy_for_entity entity with
  | none => rfl
  | some p =>
    dsimp only
    cases hs : selectRow st p.table iid org with
    | none => rfl
    | some row =>
      dsimp only
      by_cases hdel : (!(rowGet row "deleted_at").truthy) = true
      · rw [if_pos hdel]
      · rw [if_neg hdel]
        dsimp only
        rw [otherTenantRows_tables_eq _ _ _ (tables_log_change _ _ _ _ _ _ _ _ _ _ _)]
        apply otherTenantRows_updateWhere
        intro v hv
        simp only [List.mem_cons, List.not_mem_nil, or_false, Prod.mk.injEq] at hv
        rcases hv with ⟨h1, _⟩ | ⟨h1, _⟩ | ⟨h1, _⟩
        · exact absurd h1 (by decide)
        · exact absurd h1 (by decide)
        · rw [policy_updated_field entity p hp] at h1
          exact absurd h1 (by decide)

theorem otherTenant_purge (st : St) (now : String) (org actor iid : Int)
    (entity : String) :
    otherTenantRows (purge_soft_deleted_entity st now org actor entity iid).1 org =
      otherTenantRows st org := by
  unfold purge_soft_deleted_entity
  cases hp : delete_policy_for_entity entity with
  | none => rfl
  | some p =>
    dsimp only
    cases hs : selectRow st p.table iid org with
    | none => rfl
    | some row =>
      dsimp only
      by_cases hdel : (!(rowGet row "deleted_at").truthy) = true
      · rw [if_pos hdel]
      · rw [if_neg hdel]
        dsimp only
        rw [otherTenantRows_tables_eq _ _ _ (tables_log_change _ _ _ _ _ _ _ _ _ _ _)]
        exact otherTenantRows_deleteWhere st p.table iid org

theorem otherTenant_rollback (st : St) (now : String) (org actor aid : Int) :
    otherTenantRows (rollback_audit_entry st now org actor aid).1 org =
      otherTenantRows st org := by
  unfold rollback_audit_entry
  cases hf : st.audit.find? (auditMatch aid org) with
  | none => rfl
  | some row =>
    dsimp only
    cases hrb : jget (parse_audit_details row.details) "rollback" with
    | null => rfl
    | int n => rfl
    | str s => rfl
    | obj rkvs =>
      dsimp only
      by_cases htab : AUDIT_ROLLBACK_TABLES.contains (rollback_table rkvs row.entity) = true
      case neg =>
        rw [if_pos (by simpa using htab)]
      case pos =>
        rw [if_neg (by simpa using htab)]
        cases heid : rollback_entity_id rkvs row.entity_id with
        | none => rfl
        | some eid =>
          dsimp only
          cases hbef : jget rkvs "before" with
          | int n => rfl
          | str s => rfl
          | null =>
            dsimp only
            by_cases hc : (!(table_columns st (rollback_table rkvs row.entity)).contains "id" ||
                !(table_columns st (rollback_table rkvs row.entity)).contains "organization_id") = true
            · rw [if_pos hc]
            · rw [if_neg hc]
              cases hs : selectRow st (rollback_table rkvs row.entity) eid org with
              | none => rfl
              | some r0 =>
                dsimp only
                rw [otherTenantRows_tables_eq _ _ _ (tables_log_action _ _ _ _ _ _ _ _)]
                by_cases hda : (table_columns st (rollback_table rkvs row.entity)).contains
                    "deleted_at" = true
                · rw [if_pos hda]
                  apply otherTenantRows_updateWhere
                  intro v hv
                  rcases List.mem_cons.mp hv with hv | hv
                  · have h1 := congrArg Prod.fst hv
                    simp at h1
                  · rcases List.mem_append.mp hv with hv | hv
                    · by_cases h1 : (table_columns st (rollback_table rkvs row.entity)).contains
                          "deleted_by_user_id" = true
                      · rw [if_pos h1] at hv
                        simp at hv
                      · rw [if_neg h1] at hv
                        simp at hv
                    · by_cases h2 : (table_columns st (rollback_table rkvs row.entity)).contains
                          "updated_at" = true
                      · rw [if_pos h2] at hv
                        simp at hv
                      · rw [if_neg h2] at hv
                        simp at hv
                · rw [if_neg hda]
                  exact otherTenantRows_deleteWhere st (rollback_table rkvs row.entity) eid org
          | obj bkvs =>
            dsimp only
            by_cases hc : (!(table_columns st (rollback_table rkvs row.entity)).contains "id" ||
                !(table_columns st (rollback_table rkvs row.entity)).contains "organization_id") = true
            · rw [if_pos hc]
            · rw [if_neg hc]
              cases hs : selectRow st (rollback_table rkvs row.entity) eid org with
              | some r0 =>
                dsimp only
                have hnil2 : (rollback_restore_values
                    (table_columns st (rollback_table rkvs row.entity)) bkvs org now).isEmpty =
                    false := rrv_isEmpty_false _ _ _ _
                rw [if_neg (by simp [hnil2])]
                dsimp only
                rw [otherTenantRows_tables_eq _ _ _ (tables_log_action _ _ _ _ _ _ _ _)]
                apply otherTenantRows_updateWhere
                intro v hv
                exact rrv_org_val _ _ _ _ v hv
              | none =>
                dsimp only
                rw [otherTenantRows_tables_eq _ _ _ (tables_log_action _ _ _ _ _ _ _ _)]
                apply otherTenantRows_insertRow
                have horgc : (table_columns st (rollback_table rkvs row.entity)).contains
                    "organization_id" = true := by
                  by_cases h : (table_columns st (rollback_table rkvs row.entity)).contains
                      "organization_id" = true
                  · exact h
                  · exfalso
                    apply hc
                    simp only [Bool.or_eq_true, Bool.not_eq_true']
                    right
                    cases hcc : (table_columns st (rollback_table rkvs row.entity)).contains
                        "organization_id"
                    · rfl
                    · exact absurd hcc h
                unfold rowGet
                rw [alookup_filter_key
                  (fun s => (table_columns st (rollback_table rkvs row.entity)).contains s) _ _,
                  if_pos horgc,
                  alookup_setKV_other _ _ _ (by decide),
                  rrv_org_lookup]
                rfl

theorem rollback_update_existing_eq (st : St) (now : String)
    (org actor aid : Int) (row : AuditRow) (rkvs bkvs : List (String × Jx))
    (tbl : String) (eid : Int) (er : Row)
    (hf : st.audit.find? (auditMatch aid org) = some row)
    (hrb : jget (parse_audit_details row.details) "rollback" = .obj rkvs)
    (htbl : rollback_table rkvs row.entity = tbl)
    (hall : AUDIT_ROLLBACK_TABLES.contains tbl = true)
    (heid : rollback_entity_id rkvs row.entity_id = some eid)
    (hbef : jget rkvs "before" = .obj bkvs)
    (hid : (table_columns st tbl).contains "id" = true)
    (horg : (table_columns st tbl).contains "organization_id" = true)
    (hex : selectRow st tbl eid org = some er) :
    rollback_audit_entry st now org actor aid =
      (log_action
        (updateWhere st tbl eid org
          (rollback_restore_values (table_columns st tbl) bkvs org now))
        now (some org) (some actor) "audit_rollback_applied" (some tbl)
        (some (toString eid))
        (.str ("Restored snapshot from audit #" ++ toString aid)),
       true, "Rollback applied") := by
  unfold rollback_audit_entry
  rw [hf]
  simp only [hrb, htbl, hall, heid, hbef, Bool.not_true]
  rw [if_neg (by simp)]
  rw [if_neg (by simp only [hid, horg]; simp)]
  simp only [hex]
  rw [if_neg (by simp [rrv_isEmpty_false])]

/-- C9: tenant isolation.  Soft-delete, restore, purge and rollback leave
every row whose `organization_id` differs from the caller's tenant
untouched; an update-style rollback on an existing row additionally
preserves the `id` column of every row of every table (the snapshot's id
is never written) and leaves the restored row owned by the caller's
tenant, so no operation can reassign a record to another tenant or change
its identity. -/
theorem tenant_isolation (st : St) (now : String) (org actor iid aid : Int)
    (entity : String) (row : AuditRow) (rkvs bkvs : List (String × Jx))
    (tbl : String) (eid : Int) (er : Row)
    (hf : st.audit.find? (auditMatch aid org) = some row)
    (hrb : jget (parse_audit_details row.details) "rollback" = .obj rkvs)
    (htbl : rollback_table rkvs row.entity = tbl)
    (hall : AUDIT_ROLLBACK_TABLES.contains tbl = true)
    (heid : rollback_entity_id rkvs row.entity_id = some eid)
    (hbef : jget rkvs "before" = .obj bkvs)
    (hid : (table_columns st tbl).contains "id" = true)
    (horg : (table_columns st tbl).contains "organization_id" = true)
    (hex : selectRow st tbl eid org = some er) :
    otherTenantRows (entity_soft_delete st now org actor entity iid).1 org =
      otherTenantRows st org ∧
    otherTenantRows (restore_soft_deleted_entity st now org actor entity iid).1 org =
      otherTenantRows st org ∧
    otherTenantRows (purge_soft_deleted_entity st now org actor entity iid).1 org =
      otherTenantRows st org ∧
    otherTenantRows (rollback_audit_entry st now org actor aid).1 org =
      otherTenantRows st org ∧
    idsPerTable (rollback_audit_entry st now org actor aid).1 = idsPerTable st ∧
    rowGet ((selectRow (rollback_audit_entry st now org actor aid).1
      tbl eid org).getD []) "organization_id" = Jx.int org := by
  have hres := rollback_update_existing_eq st now org actor aid row rkvs bkvs tbl eid er
    hf hrb htbl hall heid hbef hid horg hex
  have hmatch : ∀ r, rowMatches eid org r = true →
      rowMatches eid org
        (setKVs r (rollback_restore_values (table_columns st tbl) bkvs org now)) = true := by
    intro r hr
    unfold rowMatches at hr ⊢
    simp only [decide_eq_true_eq] at hr ⊢
    constructor
    · rw [rowGet_setKVs_not_mem _ r "id" (fun v2 hv2 => rrv_not_id _ _ _ _ v2 hv2)]
      exact hr.1
    · exact rowGet_setKVs_forced _ r "organization_id" (Jx.int org)
        (fun v2 hv2 => rrv_org_val _ _ _ _ v2 hv2) hr.2
  refine ⟨otherTenant_soft_delete st now org actor iid entity,
    otherTenant_restore st now org actor iid entity,
    otherTenant_purge st now org actor iid entity,
    otherTenant_rollback st now org actor aid, ?_, ?_⟩
  · rw [hres]
    rw [idsPerTable_tables_eq _ _ (tables_log_action _ _ _ _ _ _ _ _)]
    exact idsPerTable_updateWhere st tbl eid org _
      (fun v hv => rrv_not_id _ _ _ _ v hv)
  · have hsel : selectRow (rollback_audit_entry st now org actor aid).1 tbl eid org =
        some (setKVs er (rollback_restore_values (table_columns st tbl) bkvs org now)) := by
      rw [hres]
      rw [selectRow_tables_eq
        (updateWhere st tbl eid org
          (rollback_restore_values (table_columns st tbl) bkvs org now)) _
        tbl eid org (tables_log_action _ _ _ _ _ _ _ _)]
      rw [selectRow_updateWhere_self st tbl eid org _ hmatch, hex]
      rfl
    rw [hsel]
    show rowGet (setKVs er
      (rollback_restore_values (table_columns st tbl) bkvs org now)) "organization_id" =
      Jx.int org
    have her : rowMatches eid org er = true := by
      unfold selectRow at hex
      cases hg : getTable st tbl with
      | none => rw [hg] at hex; simp at hex
      | some t =>
        rw [hg] at hex
        simp only [Option.bind] at hex
        exact List.find?_some hex
    unfold rowMatches at her
    simp only [decide_eq_true_eq] at her
    exact rowGet_setKVs_forced _ er "organization_id" (Jx.int org)
      (fun v2 hv2 => rrv_org_val _ _ _ _ v2 hv2) her.2

/-- Witness for C9 at a concrete two-tenant-capable store and a concrete
update-rollback entry. -/
theorem tenant_isolation_witness :
    otherTenantRows (entity_soft_delete fixUpdateSt "T2" 1 9 "task" 1).1 1 =
      otherTenantRows fixUpdateSt 1 ∧
    otherTenantRows (restore_soft_deleted_entity fixUpdateSt "T2" 1 9 "task" 1).1 1 =
      otherTenantRows fixUpdateSt 1 ∧
    otherTenantRows (purge_soft_deleted_entity fixUpdateSt "T2" 1 9 "task" 1).1 1 =
      otherTenantRows fixUpdateSt 1 ∧
    otherTenantRows (rollback_audit_entry fixUpdateSt "T2" 1 9 1).1 1 =
      otherTenantRows fixUpdateSt 1 ∧
    idsPerTable (rollback_audit_entry fixUpdateSt "T2" 1 9 1).1 =
      idsPerTable fixUpdateSt ∧
    rowGet ((selectRow (rollback_audit_entry fixUpdateSt "T2" 1 9 1).1
      "tasks" 1 1).getD []) "organization_id" = Jx.int 1 :=
  tenant_isolation fixUpdateSt "T2" 1 9 1 1 "task" fixUpdateEntry
    [("table", Jx.str "tasks"), ("entity_id", Jx.str "1"),
     ("before", Jx.obj fixUpdateBefore)]
    fixUpdateBefore "tasks" 1 fixActiveTaskRow
    (by decide) (by decide) (by decide) (by decide) (by decide) (by decide)
    (by decide) (by decide) (by decide)

theorem escLen_sum_replicate (n : Nat) (c : Char) :
    ((List.replicate n c).map escLen).foldr (fun a b => a + b) 0 = n * escLen c := by
  induction n with
  | zero => simp
  | succ m ih =>
    rw [List.replicate_succ, List.map_cons, List.foldr_cons, ih, Nat.succ_mul]
    omega

/-- A six-thousand-character field value (e.g. a long task description). -/
def fixBigStr : String :=
  String.mk (List.replicate 6000 'x')

attribute [irreducible] fixBigStr

/-- A snapshot holding the oversized value. -/
def fixBigRow : Row :=
  [("description", .str fixBigStr)]

def fixEmptySt : St :=
  { tables := [], audit := [] }

theorem jsonStrLen_fixBigStr : jsonStrLen fixBigStr = 6002 := by
  have hdata : fixBigStr.data = List.replicate 6000 'x' := by
    with_unfolding_all rfl
  unfold jsonStrLen
  rw [hdata, escLen_sum_replicate]
  decide

/-- Counterexample to C7 as stated: `tasks` is on the allow-list, yet the
entry written for a payload whose serialization exceeds the
14000-character cap (the snapshot value appears in `before`, `after` and
`rollback.before`) carries no rollback object — the stored details no
longer parse. -/
theorem ledger_writer_cap_drops_rollback :
    AUDIT_ROLLBACK_TABLES.contains "tasks" = true ∧
    ((log_change_with_rollback fixEmptySt "T1" 1 9 "task_saved" "tasks" 1
        (some fixBigRow) (some fixBigRow) "s" "api").audit.getLast?).map
      (fun a => jget (parse_audit_details a.details) "rollback") = some Jx.null := by
  have hrowlen : json_dumps_len (.obj fixBigRow) = 6019 := by
    unfold fixBigRow
    simp only [json_dumps_len, jsonEntriesLen]
    rw [jsonStrLen_fixBigStr]
    have h1 : jsonStrLen "description" = 13 := by decide
    rw [h1]
  have hbig : ¬ (json_dumps_len
      (.obj (log_change_payload "tasks" 1 (some fixBigRow) (some fixBigRow)
        "s" "api")) ≤ 14000) := by
    unfold log_change_payload
    rw [if_pos (show AUDIT_ROLLBACK_TABLES.contains "tasks" = true from by decide)]
    simp only [List.cons_append, List.nil_append]
    simp only [json_dumps_len, jsonEntriesLen]
    rw [jsonStrLen_fixBigStr]
    have h1 : jsonStrLen "description" = 13 := by decide
    have h2 : jsonStrLen "source" = 8 := by decide
    have h3 : jsonStrLen "api" = 5 := by decide
    have h4 : jsonStrLen "summary" = 9 := by decide
    have h5 : jsonStrLen (pyTake "s" 220) = 3 := by decide
    have h6 : jsonStrLen "before" = 8 := by decide
    have h7 : jsonStrLen "after" = 7 := by decide
    have h8 : jsonStrLen "rollback" = 10 := by decide
    have h9 : jsonStrLen "table" = 7 := by decide
    have h10 : jsonStrLen "tasks" = 7 := by decide
    have h11 : jsonStrLen "entity_id" = 11 := by decide
    have h12 : jsonStrLen (toString (1 : Int)) = 3 := by decide
    have h13 : jsonStrLen (Int.repr 1) = 3 := by decide
    simp only [h1, h2, h3, h4, h5, h6, h7, h8, h9, h10, h11, h12, h13]
    omega
  refine ⟨by decide, ?_⟩
  unfold log_change_with_rollback log_action truncate_details
  rw [if_neg hbig]
  simp [getLast?_append_singleton, parse_audit_details, jget, alookup]
